import Mathlib

/-!
# OpenStackControlPlane reconciler

A shallow embedding of `controllers/core/openstackcontrolplane_controller.go`.

The reconciler reads an `OpenStackControlPlane` from the store and converges
two children, a `MariaDB` named `openstack` and a `KeystoneAPI` named
`keystone`.  Go code that mutates objects and talks to a client becomes
explicit state passing here: every operation takes the collection (or the
store) it works on and gives back the new one, together with the calls it
issued to the store, in order.
-/

namespace ControlPlane

/-! ## Data model -/

/-- Classes of error a store call or the engine can report. -/
inductive StatusError where
  | NotFound
  | AlreadyExists
  | Conflict
  | Transient
  | AlreadyOwned
deriving DecidableEq, Repr

/-- The back-reference from a child to the object responsible for it. -/
structure OwnerReference where
  Kind : String
  Name : String
  UID : String
  Controller : Bool
deriving DecidableEq, Repr

/-- The metadata of `metav1.ObjectMeta` that the reconciler and the store read.
`ResourceVersion` is the version token, managed by the store.  `UID` is the
identity of an object; the reconciler reads only the UID of the parent, and
the store keeps the UID an object arrives with. -/
structure ObjectMeta where
  Name : String
  Namespace : String
  UID : String
  ResourceVersion : Nat
  OwnerReferences : List OwnerReference
deriving DecidableEq, Repr

/-- The `MariaDBSpec` of the mariadb operator: the two fields the reconciler
reads by name, and the remaining fields as uninterpreted key/value pairs. -/
structure MariaDBSpec where
  Secret : String
  StorageClass : String
  Rest : List (String × String)
deriving DecidableEq, Repr

/-- The `KeystoneAPISpec` of the keystone operator: the two fields the reconciler
reads by name, and the remaining fields as uninterpreted key/value pairs. -/
structure KeystoneAPISpec where
  Secret : String
  DatabaseInstance : String
  Rest : List (String × String)
deriving DecidableEq, Repr

/-- The fields of `OpenStackControlPlaneSpec` that the reconciler reads. -/
structure OpenStackControlPlaneSpec where
  Secret : String
  StorageClass : String
  KeystoneTemplate : KeystoneAPISpec
  MariadbTemplate : MariaDBSpec
deriving DecidableEq, Repr

/-- A stored object: embedded metadata and a spec. -/
structure Obj (S : Type) extends ObjectMeta where
  Spec : S
deriving DecidableEq, Repr

abbrev OpenStackControlPlane := Obj OpenStackControlPlaneSpec
abbrev MariaDB := Obj MariaDBSpec
abbrev KeystoneAPI := Obj KeystoneAPISpec

/-- The key of `types.NamespacedName`. -/
structure NamespacedName where
  Namespace : String
  Name : String
deriving DecidableEq, Repr

/-- The resource kinds the reconciler touches. -/
inductive Kind where
  | OpenStackControlPlane
  | MariaDB
  | KeystoneAPI
deriving DecidableEq, Repr

/-- The store calls the reconciler issues. -/
inductive Verb where
  | get
  | create
  | patch
deriving DecidableEq, Repr

/-- One call issued to the store. -/
structure Call where
  verb : Verb
  kind : Kind
  key : NamespacedName
deriving DecidableEq, Repr

/-- The store: one collection for each kind. -/
structure Store where
  controlplanes : List OpenStackControlPlane
  mariadbs : List MariaDB
  keystoneapis : List KeystoneAPI
deriving DecidableEq, Repr

/-- The value of `ctrl.Result`. -/
structure Result where
  Requeue : Bool
  RequeueAfter : Nat
deriving DecidableEq, Repr

/-- The outcome `controllerutil.OperationResult`. -/
inductive OperationResult where
  | None
  | Created
  | Updated
deriving DecidableEq, Repr

/-- The receiver of the methods of the reconciler.  `fault` is the behaviour of
the client handle: the error, if any, with which the store answers a call of a
given verb on a given kind.  `retries` is the bound on the retries of the
convergence engine, which the spec leaves open. -/
structure OpenStackControlPlaneReconciler where
  fault : Verb → Kind → Option StatusError
  retries : Nat

/-- The part of `helper.Helper` (lib-common) that the reconciler reads: the
copy of the instance taken when the helper is made. -/
structure Helper where
  beforeObject : OpenStackControlPlane
deriving DecidableEq, Repr

/-- What a run of a collection-level operation gives back. -/
structure Outcome (S : Type) where
  result : Except StatusError OperationResult
  objs : List (Obj S)
  calls : List Call

/-- What a run of the reconciler gives back. -/
structure Run where
  result : Except StatusError Result
  store : Store
  calls : List Call

/-! ## Store client -/

/-- Whether an object is stored under a key. -/
def hasKey {S : Type} (key : NamespacedName) (o : Obj S) : Bool :=
  decide (o.Namespace = key.Namespace) && decide (o.Name = key.Name)

/-- The key `client.ObjectKeyFromObject`. -/
def ObjectKeyFromObject {S : Type} (o : Obj S) : NamespacedName :=
  { Namespace := o.Namespace, Name := o.Name }

/-- The test `k8s_errors.IsNotFound`. -/
def IsNotFound (e : StatusError) : Bool :=
  decide (e = StatusError.NotFound)

/-- Modelled from the spec: `get` of the store client (spec section 6), which is
not under src/.  It answers with the object stored under the key, or with
`NotFound`. -/
def Get {S : Type} (fault : Verb → Kind → Option StatusError) (kind : Kind)
    (objs : List (Obj S)) (key : NamespacedName) : Except StatusError (Obj S) :=
  match fault Verb.get kind with
  | some e => Except.error e
  | none =>
    match objs.find? (hasKey key) with
    | some o => Except.ok o
    | none => Except.error StatusError.NotFound

/-- Modelled from the spec: `create` of the store client (spec section 6), which
is not under src/.  It refuses a key that is taken and gives the new object its
first version token. -/
def Create {S : Type} (fault : Verb → Kind → Option StatusError) (kind : Kind)
    (objs : List (Obj S)) (o : Obj S) : Except StatusError (List (Obj S)) :=
  match fault Verb.create kind with
  | some e => Except.error e
  | none =>
    if objs.any (hasKey (ObjectKeyFromObject o)) then
      Except.error StatusError.AlreadyExists
    else
      Except.ok (objs ++ [{ o with ResourceVersion := 1 }])

/-- Modelled from the spec: `update` of the store client (spec sections 3 and 6),
which is not under src/.  The update carries the version token last observed;
a mismatch is rejected, a match stores the object under the next token. -/
def Patch {S : Type} (fault : Verb → Kind → Option StatusError) (kind : Kind)
    (objs : List (Obj S)) (o : Obj S) : Except StatusError (List (Obj S)) :=
  match fault Verb.patch kind with
  | some e => Except.error e
  | none =>
    match objs.find? (hasKey (ObjectKeyFromObject o)) with
    | none => Except.error StatusError.NotFound
    | some cur =>
      if cur.ResourceVersion = o.ResourceVersion then
        Except.ok (objs.map fun x =>
          if hasKey (ObjectKeyFromObject o) x then
            { o with ResourceVersion := cur.ResourceVersion + 1 }
          else x)
      else
        Except.error StatusError.Conflict

/-! ## Ownership -/

/-- Modelled from the spec: the back-reference that `attachOwner` stamps (spec
section 4.3), a controller reference that points at the owner. -/
def controllerRef (owner : OpenStackControlPlane) : OwnerReference :=
  { Kind := "OpenStackControlPlane", Name := owner.Name, UID := owner.UID, Controller := true }

/-- Modelled from the spec: the controller-type owner of an object (spec
section 4.3), called `metav1.GetControllerOf` in the library: the owner
reference marked as controller, if there is one. -/
def GetControllerOf (m : ObjectMeta) : Option OwnerReference :=
  m.OwnerReferences.find? fun r => r.Controller

/-- Modelled from the spec: `attachOwner(child, parent)` (spec section 4.3),
called `controllerutil.SetControllerReference` by the source and not under
src/.  It stamps the child with a controller reference to the parent; an
object has at most one controller owner, so a child that another object
controls is refused and left as it is. -/
def SetControllerReference (owner : OpenStackControlPlane) (controlled : ObjectMeta) :
    Except StatusError ObjectMeta :=
  match GetControllerOf controlled with
  | some existing =>
    if existing.UID = owner.UID then Except.ok controlled
    else Except.error StatusError.AlreadyOwned
  | none =>
    Except.ok { controlled with
      OwnerReferences := controlled.OwnerReferences ++ [controllerRef owner] }

/-! ## Convergence engine -/

/-- Modelled from the spec: the comparison of step 3 of `converge` (spec section
4.2), equality of two objects field by field up to the metadata the store
manages. -/
def sameDesired {S : Type} [DecidableEq S] (a b : Obj S) : Bool :=
  decide (a.Name = b.Name) && decide (a.Namespace = b.Namespace) &&
    decide (a.OwnerReferences = b.OwnerReferences) && decide (a.Spec = b.Spec)

/-- Modelled from the spec: the errors after which `converge` fetches again and
retries (spec section 4.2, steps 2 and 4): a version mismatch and a create
that lost a race. -/
def retryable (e : StatusError) : Bool :=
  decide (e = StatusError.Conflict) || decide (e = StatusError.AlreadyExists)

/-- Modelled from the spec: one attempt of `converge` (spec section 4.2, steps 1
to 3), not under src/.  Fetch the child; when absent, mutate the given object
and create it; when present, mutate the fetched object and update it only if
it differs from what was fetched. -/
def CreateOrPatchOnce {S : Type} [DecidableEq S] (fault : Verb → Kind → Option StatusError)
    (kind : Kind) (objs : List (Obj S)) (obj : Obj S)
    (f : Obj S → Except StatusError (Obj S)) : Outcome S :=
  let key := ObjectKeyFromObject obj
  match Get fault kind objs key with
  | Except.error e =>
    if IsNotFound e then
      match f obj with
      | Except.error e1 => ⟨Except.error e1, objs, [⟨Verb.get, kind, key⟩]⟩
      | Except.ok d =>
        match Create fault kind objs d with
        | Except.error e2 =>
          ⟨Except.error e2, objs, [⟨Verb.get, kind, key⟩, ⟨Verb.create, kind, key⟩]⟩
        | Except.ok objs1 =>
          ⟨Except.ok OperationResult.Created, objs1,
            [⟨Verb.get, kind, key⟩, ⟨Verb.create, kind, key⟩]⟩
    else ⟨Except.error e, objs, [⟨Verb.get, kind, key⟩]⟩
  | Except.ok cur =>
    match f cur with
    | Except.error e1 => ⟨Except.error e1, objs, [⟨Verb.get, kind, key⟩]⟩
    | Except.ok d =>
      if sameDesired d cur then
        ⟨Except.ok OperationResult.None, objs, [⟨Verb.get, kind, key⟩]⟩
      else
        match Patch fault kind objs d with
        | Except.error e2 =>
          ⟨Except.error e2, objs, [⟨Verb.get, kind, key⟩, ⟨Verb.patch, kind, key⟩]⟩
        | Except.ok objs1 =>
          ⟨Except.ok OperationResult.Updated, objs1,
            [⟨Verb.get, kind, key⟩, ⟨Verb.patch, kind, key⟩]⟩

/-- Modelled from the spec: `converge` (spec section 4.2), called
`controllerutil.CreateOrPatch` by the source and not under src/.  An attempt
that ends in a retryable error is repeated from a fresh fetch, at most
`retries` times; past the bound the caller gets a transient error. -/
def CreateOrPatch {S : Type} [DecidableEq S] (fault : Verb → Kind → Option StatusError) :
    Nat → Kind → List (Obj S) → Obj S → (Obj S → Except StatusError (Obj S)) → Outcome S
  | 0, kind, objs, obj, f =>
    let a := CreateOrPatchOnce fault kind objs obj f
    match a.result with
    | Except.error e =>
      if retryable e then ⟨Except.error StatusError.Transient, a.objs, a.calls⟩ else a
    | Except.ok _ => a
  | n + 1, kind, objs, obj, f =>
    let a := CreateOrPatchOnce fault kind objs obj f
    match a.result with
    | Except.error e =>
      if retryable e then
        let b := CreateOrPatch fault n kind a.objs obj f
        ⟨b.result, b.objs, a.calls ++ b.calls⟩
      else a
    | Except.ok _ => a

/-! ## The reconciler -/

/-- The method `Helper.GetBeforeObject` of lib-common, not under src/: the copy
of the instance that the helper keeps. -/
def Helper.GetBeforeObject (h : Helper) : OpenStackControlPlane :=
  h.beforeObject

/-- The constructor `helper.NewHelper` of lib-common, not under src/.  It keeps
a copy of the instance it is made for, so that the owner stamped on the
children is the parent (spec section 4.3). -/
def NewHelper (inst : OpenStackControlPlane) : Except StatusError Helper :=
  Except.ok { beforeObject := inst }

/-- The spec that the MariaDB mutate function of `reconcileNormal` writes
(source lines 120 to 126): the template, with an empty `Secret` and an empty
`StorageClass` taken from the instance. -/
def desiredMariaDBSpec (inst : OpenStackControlPlane) : MariaDBSpec :=
  let spec := inst.Spec.MariadbTemplate
  let spec := if spec.Secret = "" then { spec with Secret := inst.Spec.Secret } else spec
  if spec.StorageClass = "" then { spec with StorageClass := inst.Spec.StorageClass } else spec

/-- The spec that the KeystoneAPI mutate function of `reconcileNormal` writes
(source lines 147 to 154): the template, with an empty `Secret` taken from the
instance and an empty `DatabaseInstance` set to `openstack`. -/
def desiredKeystoneAPISpec (inst : OpenStackControlPlane) : KeystoneAPISpec :=
  let spec := inst.Spec.KeystoneTemplate
  let spec := if spec.Secret = "" then { spec with Secret := inst.Spec.Secret } else spec
  if spec.DatabaseInstance = "" then { spec with DatabaseInstance := "openstack" } else spec

/-- The mutate function that `reconcileNormal` hands to `CreateOrPatch` for the
MariaDB child (source lines 119 to 133). -/
def mariadbMutate (inst : OpenStackControlPlane) (helper : Helper) (mariadb : MariaDB) :
    Except StatusError MariaDB :=
  let spec := desiredMariaDBSpec inst
  match SetControllerReference helper.GetBeforeObject mariadb.toObjectMeta with
  | Except.error err => Except.error err
  | Except.ok m => Except.ok { toObjectMeta := m, Spec := spec }

/-- The mutate function that `reconcileNormal` hands to `CreateOrPatch` for the
KeystoneAPI child (source lines 146 to 160). -/
def keystoneMutate (inst : OpenStackControlPlane) (helper : Helper) (keystoneAPI : KeystoneAPI) :
    Except StatusError KeystoneAPI :=
  let spec := desiredKeystoneAPISpec inst
  match SetControllerReference helper.GetBeforeObject keystoneAPI.toObjectMeta with
  | Except.error err => Except.error err
  | Except.ok m => Except.ok { toObjectMeta := m, Spec := spec }

/-- The method `reconcileNormal` (source lines 109 to 167): converge the
MariaDB child, return its error if it fails, then converge the KeystoneAPI
child. -/
def reconcileNormal (r : OpenStackControlPlaneReconciler) (s : Store)
    (inst : OpenStackControlPlane) (helper : Helper) : Run :=
  let mariadb : MariaDB :=
    { Name := "openstack", Namespace := inst.Namespace, UID := "", ResourceVersion := 0,
      OwnerReferences := [], Spec := { Secret := "", StorageClass := "", Rest := [] } }
  let m := CreateOrPatch r.fault r.retries Kind.MariaDB s.mariadbs mariadb
    (mariadbMutate inst helper)
  match m.result with
  | Except.error err => ⟨Except.error err, { s with mariadbs := m.objs }, m.calls⟩
  | Except.ok _ =>
    let keystoneAPI : KeystoneAPI :=
      { Name := "keystone", Namespace := inst.Namespace, UID := "", ResourceVersion := 0,
        OwnerReferences := [], Spec := { Secret := "", DatabaseInstance := "", Rest := [] } }
    let k := CreateOrPatch r.fault r.retries Kind.KeystoneAPI s.keystoneapis keystoneAPI
      (keystoneMutate inst helper)
    match k.result with
    | Except.error err =>
      ⟨Except.error err, { s with mariadbs := m.objs, keystoneapis := k.objs },
        m.calls ++ k.calls⟩
    | Except.ok _ =>
      ⟨Except.ok { Requeue := false, RequeueAfter := 0 },
        { s with mariadbs := m.objs, keystoneapis := k.objs }, m.calls ++ k.calls⟩

/-- The method `Reconcile` (source lines 78 to 107): fetch the instance; when it
is not found return the empty result and no error; on another error return it;
otherwise make the helper and run `reconcileNormal`. -/
def Reconcile (r : OpenStackControlPlaneReconciler) (s : Store) (req : NamespacedName) : Run :=
  match Get r.fault Kind.OpenStackControlPlane s.controlplanes req with
  | Except.error err =>
    if IsNotFound err then
      ⟨Except.ok { Requeue := false, RequeueAfter := 0 }, s,
        [⟨Verb.get, Kind.OpenStackControlPlane, req⟩]⟩
    else
      ⟨Except.error err, s, [⟨Verb.get, Kind.OpenStackControlPlane, req⟩]⟩
  | Except.ok inst =>
    match NewHelper inst with
    | Except.error err => ⟨Except.error err, s, [⟨Verb.get, Kind.OpenStackControlPlane, req⟩]⟩
    | Except.ok helper =>
      let n := reconcileNormal r s inst helper
      ⟨n.result, n.store, ⟨Verb.get, Kind.OpenStackControlPlane, req⟩ :: n.calls⟩

/-! ## Reading a run -/

/-- The calls of a trace that write to a given kind. -/
def writesTo (kind : Kind) (calls : List Call) : List Call :=
  calls.filter fun c => decide (c.kind = kind) && decide (c.verb ≠ Verb.get)

/-- The calls of a trace that write at all. -/
def writes (calls : List Call) : List Call :=
  calls.filter fun c => decide (c.verb ≠ Verb.get)

/-- The calls of a trace on a given kind. -/
def callsOn (kind : Kind) (calls : List Call) : List Call :=
  calls.filter fun c => decide (c.kind = kind)

/-- A client whose store answers every well-formed call. -/
def noFault : Verb → Kind → Option StatusError :=
  fun _ _ => none

/-- The shape the two mutate functions of `reconcileNormal` share: write the
desired spec and stamp the owner. -/
def mutateWith {S : Type} (owner : OpenStackControlPlane) (desired : S) (o : Obj S) :
    Except StatusError (Obj S) :=
  match SetControllerReference owner o.toObjectMeta with
  | Except.error err => Except.error err
  | Except.ok m => Except.ok { toObjectMeta := m, Spec := desired }

/-- The object `mariadb` that `reconcileNormal` hands to `CreateOrPatch` (source
lines 111 to 116). -/
def mariadbObject (inst : OpenStackControlPlane) : MariaDB :=
  { Name := "openstack", Namespace := inst.Namespace, UID := "", ResourceVersion := 0,
    OwnerReferences := [], Spec := { Secret := "", StorageClass := "", Rest := [] } }

/-- The object `keystoneAPI` that `reconcileNormal` hands to `CreateOrPatch`
(source lines 138 to 143). -/
def keystoneAPIObject (inst : OpenStackControlPlane) : KeystoneAPI :=
  { Name := "keystone", Namespace := inst.Namespace, UID := "", ResourceVersion := 0,
    OwnerReferences := [], Spec := { Secret := "", DatabaseInstance := "", Rest := [] } }

/-- The first `CreateOrPatch` of `reconcileNormal` (source lines 119 to 133). -/
def convergeMariaDB (r : OpenStackControlPlaneReconciler) (s : Store)
    (inst : OpenStackControlPlane) (helper : Helper) : Outcome MariaDBSpec :=
  CreateOrPatch r.fault r.retries Kind.MariaDB s.mariadbs (mariadbObject inst)
    (mariadbMutate inst helper)

/-- The second `CreateOrPatch` of `reconcileNormal` (source lines 146 to 160). -/
def convergeKeystoneAPI (r : OpenStackControlPlaneReconciler) (s : Store)
    (inst : OpenStackControlPlane) (helper : Helper) : Outcome KeystoneAPISpec :=
  CreateOrPatch r.fault r.retries Kind.KeystoneAPI s.keystoneapis (keystoneAPIObject inst)
    (keystoneMutate inst helper)

/-- The key of the MariaDB child of an instance. -/
def mariadbKey (inst : OpenStackControlPlane) : NamespacedName :=
  { Namespace := inst.Namespace, Name := "openstack" }

/-- The key of the KeystoneAPI child of an instance. -/
def keystoneKey (inst : OpenStackControlPlane) : NamespacedName :=
  { Namespace := inst.Namespace, Name := "keystone" }

/-- An instance after its `Spec.StorageClass` alone is changed. -/
def withStorageClass (inst : OpenStackControlPlane) (sc : String) : OpenStackControlPlane :=
  { inst with Spec := { inst.Spec with StorageClass := sc } }

/-- A converged child: it is stored under the key, carries the desired spec and
is controlled by the owner. -/
def Converged {S : Type} (owner : OpenStackControlPlane) (desired : S) (key : NamespacedName)
    (objs : List (Obj S)) : Prop :=
  ∃ c, objs.find? (hasKey key) = some c ∧ c.Spec = desired ∧
    ∃ r, GetControllerOf c.toObjectMeta = some r ∧ r.UID = owner.UID

/-! ## Sample objects -/

/-- A control plane `controlplane` in namespace `osp` with empty templates and
a given storage class. -/
def samplePlane (sc : String) : OpenStackControlPlane :=
  { Name := "controlplane", Namespace := "osp", UID := "uid-a", ResourceVersion := 1,
    OwnerReferences := [],
    Spec := { Secret := "osp-secret", StorageClass := sc,
              KeystoneTemplate := { Secret := "", DatabaseInstance := "", Rest := [] },
              MariadbTemplate := { Secret := "", StorageClass := "", Rest := [] } } }

/-- A reconciler whose store answers every call. -/
def sampleReconciler : OpenStackControlPlaneReconciler :=
  { fault := noFault, retries := 3 }

/-- A controller reference to a second control plane of the namespace. -/
def foreignRef : OwnerReference :=
  { Kind := "OpenStackControlPlane", Name := "other", UID := "uid-b", Controller := true }

/-- A MariaDB `openstack` that the second control plane controls. -/
def foreignMariaDB : MariaDB :=
  { Name := "openstack", Namespace := "osp", UID := "uid-m", ResourceVersion := 4,
    OwnerReferences := [foreignRef],
    Spec := { Secret := "other-secret", StorageClass := "slow", Rest := [] } }

/-- A KeystoneAPI `keystone` that the second control plane controls. -/
def foreignKeystoneAPI : KeystoneAPI :=
  { Name := "keystone", Namespace := "osp", UID := "uid-k", ResourceVersion := 2,
    OwnerReferences := [foreignRef],
    Spec := { Secret := "other-secret", DatabaseInstance := "otherdb", Rest := [] } }

/-- A MariaDB `openstack` that the sample plane controls and whose storage
class has drifted. -/
def driftedMariaDB : MariaDB :=
  { Name := "openstack", Namespace := "osp", UID := "uid-m", ResourceVersion := 4,
    OwnerReferences := [controllerRef (samplePlane "standard")],
    Spec := { Secret := "osp-secret", StorageClass := "slow", Rest := [] } }

/-- A KeystoneAPI `keystone` that the sample plane controls and whose database
instance has drifted. -/
def driftedKeystoneAPI : KeystoneAPI :=
  { Name := "keystone", Namespace := "osp", UID := "uid-k", ResourceVersion := 2,
    OwnerReferences := [controllerRef (samplePlane "standard")],
    Spec := { Secret := "osp-secret", DatabaseInstance := "stale", Rest := [] } }

/-- A store that holds a sample plane and no child. -/
def freshStore (sc : String) : Store :=
  { controlplanes := [samplePlane sc], mariadbs := [], keystoneapis := [] }

/-! ## Lemmas -/

/-- The MariaDB mutate function has the shared shape. -/
theorem mariadbMutate_eq (inst : OpenStackControlPlane) (helper : Helper) :
    mariadbMutate inst helper = mutateWith helper.GetBeforeObject (desiredMariaDBSpec inst) := rfl

/-- The KeystoneAPI mutate function has the shared shape. -/
theorem keystoneMutate_eq (inst : OpenStackControlPlane) (helper : Helper) :
    keystoneMutate inst helper = mutateWith helper.GetBeforeObject (desiredKeystoneAPISpec inst) := rfl

/-! ### Ownership lemmas -/

/-- The only error of `SetControllerReference` is `AlreadyOwned`. -/
theorem scr_error {owner : OpenStackControlPlane} {m : ObjectMeta} {e : StatusError}
    (h : SetControllerReference owner m = Except.error e) : e = StatusError.AlreadyOwned := by
  unfold SetControllerReference at h
  split at h
  · split at h
    · cases h
    · cases h; rfl
  · cases h

/-- A successful `SetControllerReference` keeps name, namespace, UID and version token. -/
theorem scr_ok_fields {owner : OpenStackControlPlane} {m m1 : ObjectMeta}
    (h : SetControllerReference owner m = Except.ok m1) :
    m1.Name = m.Name ∧ m1.Namespace = m.Namespace ∧ m1.UID = m.UID ∧
      m1.ResourceVersion = m.ResourceVersion := by
  unfold SetControllerReference at h
  split at h
  · split at h
    · cases h; exact ⟨rfl, rfl, rfl, rfl⟩
    · cases h
  · cases h; exact ⟨rfl, rfl, rfl, rfl⟩

/-- After a successful `SetControllerReference` the owner is the controller. -/
theorem scr_ok_controller {owner : OpenStackControlPlane} {m m1 : ObjectMeta}
    (h : SetControllerReference owner m = Except.ok m1) :
    ∃ c, GetControllerOf m1 = some c ∧ c.UID = owner.UID := by
  unfold SetControllerReference at h
  split at h
  · rename_i existing hex
    split at h
    · rename_i hu
      cases h; exact ⟨existing, hex, hu⟩
    · cases h
  · rename_i hnone
    cases h
    refine ⟨controllerRef owner, ?_, rfl⟩
    unfold GetControllerOf at hnone ⊢
    simp only [List.find?_append, hnone, Option.none_or]
    simp [controllerRef]

/-- An object that the owner controls already is left as it is. -/
theorem scr_of_controller {owner : OpenStackControlPlane} {m : ObjectMeta} {c : OwnerReference}
    (hc : GetControllerOf m = some c) (hu : c.UID = owner.UID) :
    SetControllerReference owner m = Except.ok m := by
  unfold SetControllerReference
  simp [hc, hu]

/-- An object that another object controls is refused. -/
theorem scr_of_other {owner : OpenStackControlPlane} {m : ObjectMeta} {c : OwnerReference}
    (hc : GetControllerOf m = some c) (hu : c.UID ≠ owner.UID) :
    SetControllerReference owner m = Except.error StatusError.AlreadyOwned := by
  unfold SetControllerReference
  simp [hc, hu]

/-! ### Engine lemmas -/

/-- When the first attempt does not end in a retryable error, `CreateOrPatch` is that attempt. -/
theorem createOrPatch_of_final {S : Type} [DecidableEq S] (fault : Verb → Kind → Option StatusError) (n : Nat) (kind : Kind)
    (objs : List (Obj S)) (obj : Obj S) (f : Obj S → Except StatusError (Obj S))
    (h : ∀ e, (CreateOrPatchOnce fault kind objs obj f).result = Except.error e →
      retryable e = false) :
    CreateOrPatch fault n kind objs obj f = CreateOrPatchOnce fault kind objs obj f := by
  cases n with
  | zero =>
    unfold CreateOrPatch
    simp only []
    split
    · rename_i e he
      simp [h e he]
    · rfl
  | succ n =>
    unfold CreateOrPatch
    simp only []
    split
    · rename_i e he
      simp [h e he]
    · rfl

/-- Every call of one attempt is on the kind and key of the object handed in. -/
theorem once_calls {S : Type} [DecidableEq S] (fault : Verb → Kind → Option StatusError) (kind : Kind)
    (objs : List (Obj S)) (obj : Obj S) (f : Obj S → Except StatusError (Obj S)) :
    ∀ c ∈ (CreateOrPatchOnce fault kind objs obj f).calls,
      c.kind = kind ∧ c.key = ObjectKeyFromObject obj := by
  intro c hc
  unfold CreateOrPatchOnce at hc
  simp only [] at hc
  repeat' split at hc
  all_goals
    simp only [List.mem_cons, List.mem_singleton, List.not_mem_nil, or_false] at hc
    first
      | (subst hc; exact ⟨rfl, rfl⟩)
      | (rcases hc with h | h <;> subst h <;> exact ⟨rfl, rfl⟩)

/-- One attempt starts with the fetch of the object. -/
theorem once_calls_head {S : Type} [DecidableEq S] (fault : Verb → Kind → Option StatusError) (kind : Kind)
    (objs : List (Obj S)) (obj : Obj S) (f : Obj S → Except StatusError (Obj S)) :
    ∃ t, (CreateOrPatchOnce fault kind objs obj f).calls =
      ⟨Verb.get, kind, ObjectKeyFromObject obj⟩ :: t := by
  unfold CreateOrPatchOnce
  simp only []
  repeat' split
  all_goals exact ⟨_, rfl⟩

/-- Every call of `CreateOrPatch` is on the kind and key of the object handed in. -/
theorem createOrPatch_calls {S : Type} [DecidableEq S] (fault : Verb → Kind → Option StatusError) (n : Nat) (kind : Kind)
    (objs : List (Obj S)) (obj : Obj S) (f : Obj S → Except StatusError (Obj S)) :
    ∀ c ∈ (CreateOrPatch fault n kind objs obj f).calls,
      c.kind = kind ∧ c.key = ObjectKeyFromObject obj := by
  induction n generalizing objs with
  | zero =>
    intro c hc
    unfold CreateOrPatch at hc
    simp only [] at hc
    repeat' split at hc
    all_goals exact once_calls fault kind objs obj f c hc
  | succ n ih =>
    intro c hc
    unfold CreateOrPatch at hc
    simp only [] at hc
    split at hc
    · split at hc
      · simp only [List.mem_append] at hc
        rcases hc with h | h
        · exact once_calls fault kind objs obj f c h
        · exact ih _ c h
      · exact once_calls fault kind objs obj f c hc
    · exact once_calls fault kind objs obj f c hc

/-- The calls of `CreateOrPatch` start with the fetch of the object. -/
theorem createOrPatch_calls_head {S : Type} [DecidableEq S] (fault : Verb → Kind → Option StatusError) (n : Nat)
    (kind : Kind) (objs : List (Obj S)) (obj : Obj S) (f : Obj S → Except StatusError (Obj S)) :
    ∃ t, (CreateOrPatch fault n kind objs obj f).calls =
      ⟨Verb.get, kind, ObjectKeyFromObject obj⟩ :: t := by
  obtain ⟨t, ht⟩ := once_calls_head fault kind objs obj f
  cases n with
  | zero =>
    unfold CreateOrPatch
    simp only []
    repeat' split
    all_goals exact ⟨t, ht⟩
  | succ n =>
    unfold CreateOrPatch
    simp only []
    repeat' split
    · exact ⟨t ++ (CreateOrPatch fault n kind (CreateOrPatchOnce fault kind objs obj f).objs
        obj f).calls, by simp [ht]⟩
    all_goals exact ⟨t, ht⟩

/-! ### Store lemmas -/

/-- A successful `Get` gives the object stored under the key. -/
theorem get_ok {S : Type} {fault : Verb → Kind → Option StatusError} {kind : Kind} {objs : List (Obj S)}
    {key : NamespacedName} {cur : Obj S} (h : Get fault kind objs key = Except.ok cur) :
    objs.find? (hasKey key) = some cur := by
  unfold Get at h
  split at h
  · cases h
  · split at h
    · rename_i o ho
      cases h; exact ho
    · cases h

/-- On a store that answers every call, `Get` gives the object stored under the key. -/
theorem get_noFault_some {S : Type} {kind : Kind} {objs : List (Obj S)} {key : NamespacedName} {cur : Obj S}
    (h : objs.find? (hasKey key) = some cur) : Get noFault kind objs key = Except.ok cur := by
  simp [Get, noFault, h]

/-- On a store that answers every call, `Get` of an absent key is `NotFound`. -/
theorem get_noFault_none {S : Type} {kind : Kind} {objs : List (Obj S)} {key : NamespacedName}
    (h : objs.find? (hasKey key) = none) :
    Get noFault kind objs key = Except.error StatusError.NotFound := by
  simp [Get, noFault, h]

/-- A successful `Create` found the key free and appended the object. -/
theorem create_ok {S : Type} {fault : Verb → Kind → Option StatusError} {kind : Kind} {objs objs1 : List (Obj S)}
    {o : Obj S} (h : Create fault kind objs o = Except.ok objs1) :
    objs.find? (hasKey (ObjectKeyFromObject o)) = none ∧
      objs1 = objs ++ [{ o with ResourceVersion := 1 }] := by
  unfold Create at h
  split at h
  · cases h
  · split at h
    · cases h
    · rename_i hany
      cases h
      refine ⟨?_, rfl⟩
      rw [List.find?_eq_none]
      intro x hx hk
      exact hany (List.any_eq_true.mpr ⟨x, hx, hk⟩)

/-- A `Create` on a key that is taken fails. -/
theorem create_error_objs {S : Type} (fault : Verb → Kind → Option StatusError) (kind : Kind)
    {objs : List (Obj S)} {o cur : Obj S}
    (h : objs.find? (hasKey (ObjectKeyFromObject o)) = some cur) :
    ∃ e, Create fault kind objs o = Except.error e := by
  unfold Create
  split
  · exact ⟨_, rfl⟩
  · have hany : objs.any (hasKey (ObjectKeyFromObject o)) = true :=
      List.any_eq_true.mpr ⟨cur, List.mem_of_find?_eq_some h, List.find?_some h⟩
    simp [hany]

/-- After the object under a key is replaced, the key holds the replacement. -/
theorem find_replace {S : Type} (key : NamespacedName) (new : Obj S) (hnew : hasKey key new = true) :
    ∀ (l : List (Obj S)) (cur : Obj S), l.find? (hasKey key) = some cur →
      (l.map fun x => if hasKey key x then new else x).find? (hasKey key) = some new := by
  intro l
  induction l with
  | nil => intro cur h; cases h
  | cons a l ih =>
    intro cur h
    by_cases ha : hasKey key a = true
    · rw [List.map_cons]
      simp only [ha, if_true]
      exact List.find?_cons_of_pos _ hnew
    · rw [List.find?_cons_of_neg _ ha] at h
      have hb : hasKey key a = false := by simpa using ha
      rw [List.map_cons]
      simp only [hb, Bool.false_eq_true, if_false]
      rw [List.find?_cons_of_neg _ ha]
      exact ih cur h

/-- A successful `Patch` found the object and replaced it. -/
theorem patch_ok {S : Type} {fault : Verb → Kind → Option StatusError} {kind : Kind} {objs objs1 : List (Obj S)}
    {o : Obj S} (h : Patch fault kind objs o = Except.ok objs1) :
    ∃ cur, objs.find? (hasKey (ObjectKeyFromObject o)) = some cur ∧
      objs1 = objs.map fun x =>
        if hasKey (ObjectKeyFromObject o) x then
          { o with ResourceVersion := cur.ResourceVersion + 1 }
        else x := by
  unfold Patch at h
  split at h
  · cases h
  · split at h
    · cases h
    · rename_i cur hcur
      split at h
      · cases h; exact ⟨cur, hcur, rfl⟩
      · cases h

/-- A successful mutation carries the stamped metadata and the desired spec. -/
theorem mutateWith_ok {S : Type} {owner : OpenStackControlPlane} {desired : S} {o d : Obj S}
    (h : mutateWith owner desired o = Except.ok d) :
    ∃ m, SetControllerReference owner o.toObjectMeta = Except.ok m ∧
      d = { toObjectMeta := m, Spec := desired } := by
  unfold mutateWith at h
  split at h
  · cases h
  · rename_i m hm
    cases h; exact ⟨m, hm, rfl⟩

/-- A mutation keeps the key of the object. -/
theorem mutateWith_key {S : Type} {owner : OpenStackControlPlane} {desired : S} {o d : Obj S}
    (h : mutateWith owner desired o = Except.ok d) :
    ObjectKeyFromObject d = ObjectKeyFromObject o := by
  obtain ⟨m, hm, rfl⟩ := mutateWith_ok h
  obtain ⟨h1, h2, -, -⟩ := scr_ok_fields hm
  simp [ObjectKeyFromObject, h1, h2]

/-- After one attempt without error the child is converged. -/
theorem once_ok_post {S : Type} [DecidableEq S] (fault : Verb → Kind → Option StatusError) (kind : Kind)
    (objs : List (Obj S)) (obj : Obj S) (owner : OpenStackControlPlane) (desired : S)
    (res : OperationResult) :
    (CreateOrPatchOnce fault kind objs obj (mutateWith owner desired)).result = Except.ok res →
    Converged owner desired (ObjectKeyFromObject obj)
      (CreateOrPatchOnce fault kind objs obj (mutateWith owner desired)).objs := by
  unfold CreateOrPatchOnce
  simp only []
  split
  · split
    · split
      · intro h; cases h
      · rename_i d hd
        split
        · intro h; cases h
        · rename_i objs1 hcreate
          intro _
          obtain ⟨m, hm, rfl⟩ := mutateWith_ok hd
          obtain ⟨hnone, rfl⟩ := create_ok hcreate
          obtain ⟨h1, h2, -, -⟩ := scr_ok_fields hm
          obtain ⟨r, hr, hu⟩ := scr_ok_controller hm
          have hk : (ObjectKeyFromObject ({ toObjectMeta := m, Spec := desired } : Obj S)) =
              ObjectKeyFromObject obj := by simp [ObjectKeyFromObject, h1, h2]
          rw [hk] at hnone
          refine ⟨⟨{ m with ResourceVersion := 1 }, desired⟩, ?_, rfl, r, hr, hu⟩
          rw [List.find?_append, hnone]
          simp [hasKey, ObjectKeyFromObject, h1, h2]
    · intro h; cases h
  · rename_i cur hget
    have hfind := get_ok hget
    split
    · intro h; cases h
    · rename_i d hd
      obtain ⟨m, hm, rfl⟩ := mutateWith_ok hd
      obtain ⟨h1, h2, -, -⟩ := scr_ok_fields hm
      obtain ⟨r, hr, hu⟩ := scr_ok_controller hm
      split
      · rename_i hsame
        intro _
        simp only [sameDesired, Bool.and_eq_true, decide_eq_true_eq] at hsame
        obtain ⟨⟨⟨-, -⟩, ho⟩, hs⟩ := hsame
        refine ⟨cur, hfind, hs.symm, r, ?_, hu⟩
        unfold GetControllerOf at hr ⊢
        rw [← ho]; exact hr
      · split
        · intro h; cases h
        · rename_i objs1 hpatch
          intro _
          obtain ⟨cur1, hcur1, rfl⟩ := patch_ok hpatch
          have hk : (ObjectKeyFromObject ({ toObjectMeta := m, Spec := desired } : Obj S)) =
              ObjectKeyFromObject obj := by
            have := List.find?_some hfind
            simp only [hasKey, ObjectKeyFromObject, Bool.and_eq_true, decide_eq_true_eq] at this
            simp [ObjectKeyFromObject, h1, h2, this.1, this.2]
          rw [hk] at hcur1 ⊢
          refine ⟨⟨{ m with ResourceVersion := cur1.ResourceVersion + 1 }, desired⟩,
            find_replace _ _ ?_ objs cur1 hcur1, rfl, r, hr, hu⟩
          rw [← hk]
          simp [hasKey, ObjectKeyFromObject]

/-- After `CreateOrPatch` without error the child is converged. -/
theorem createOrPatch_ok_post {S : Type} [DecidableEq S] (fault : Verb → Kind → Option StatusError)
    (n : Nat) (kind : Kind) (objs : List (Obj S)) (obj : Obj S) (owner : OpenStackControlPlane)
    (desired : S) (res : OperationResult) :
    (CreateOrPatch fault n kind objs obj (mutateWith owner desired)).result = Except.ok res →
    Converged owner desired (ObjectKeyFromObject obj)
      (CreateOrPatch fault n kind objs obj (mutateWith owner desired)).objs := by
  induction n generalizing objs with
  | zero =>
    unfold CreateOrPatch
    simp only []
    split
    · rename_i e he
      split
      · intro h; cases h
      · intro h; rw [he] at h; cases h
    · rename_i r hr
      intro _
      exact once_ok_post fault kind objs obj owner desired r hr
  | succ n ih =>
    unfold CreateOrPatch
    simp only []
    split
    · rename_i e he
      split
      · exact ih _
      · intro h; rw [he] at h; cases h
    · rename_i r hr
      intro _
      exact once_ok_post fault kind objs obj owner desired r hr

/-- One attempt on a child that another object controls fails and changes nothing. -/
theorem once_other_owned {S : Type} [DecidableEq S] (fault : Verb → Kind → Option StatusError)
    (kind : Kind) (objs : List (Obj S)) (obj : Obj S) (owner : OpenStackControlPlane)
    (desired : S) (cur : Obj S) (c : OwnerReference)
    (hfind : objs.find? (hasKey (ObjectKeyFromObject obj)) = some cur)
    (hc : GetControllerOf cur.toObjectMeta = some c) (hu : c.UID ≠ owner.UID) :
    (∃ e, (CreateOrPatchOnce fault kind objs obj (mutateWith owner desired)).result =
        Except.error e) ∧
      (CreateOrPatchOnce fault kind objs obj (mutateWith owner desired)).objs = objs := by
  unfold CreateOrPatchOnce
  simp only []
  split
  · split
    · split
      · exact ⟨⟨_, rfl⟩, rfl⟩
      · rename_i d hd
        split
        · exact ⟨⟨_, rfl⟩, rfl⟩
        · rename_i objs1 hcreate
          rw [← mutateWith_key hd] at hfind
          obtain ⟨e, he⟩ := create_error_objs fault kind hfind
          rw [he] at hcreate; cases hcreate
    · exact ⟨⟨_, rfl⟩, rfl⟩
  · rename_i cur1 hget
    have h1 := get_ok hget
    rw [hfind] at h1
    cases h1
    split
    · exact ⟨⟨_, rfl⟩, rfl⟩
    · rename_i d hd
      obtain ⟨m, hm, -⟩ := mutateWith_ok hd
      rw [scr_of_other hc hu] at hm; cases hm

/-- `CreateOrPatch` on a child that another object controls fails and changes nothing. -/
theorem createOrPatch_other_owned {S : Type} [DecidableEq S]
    (fault : Verb → Kind → Option StatusError) (n : Nat)
    (kind : Kind) (objs : List (Obj S)) (obj : Obj S) (owner : OpenStackControlPlane)
    (desired : S) (cur : Obj S) (c : OwnerReference)
    (hfind : objs.find? (hasKey (ObjectKeyFromObject obj)) = some cur)
    (hc : GetControllerOf cur.toObjectMeta = some c) (hu : c.UID ≠ owner.UID) :
    (∃ e, (CreateOrPatch fault n kind objs obj (mutateWith owner desired)).result =
        Except.error e) ∧
      (CreateOrPatch fault n kind objs obj (mutateWith owner desired)).objs = objs := by
  obtain ⟨⟨e, he⟩, ho⟩ := once_other_owned fault kind objs obj owner desired cur c hfind hc hu
  induction n with
  | zero =>
    unfold CreateOrPatch
    simp only [he]
    split
    · exact ⟨⟨_, rfl⟩, ho⟩
    · exact ⟨⟨_, he⟩, ho⟩
  | succ n ih =>
    unfold CreateOrPatch
    simp only [he]
    split
    · simp only [ho]
      exact ih
    · exact ⟨⟨_, he⟩, ho⟩

/-! ### The engine on a store that answers every call -/

/-- One attempt on an absent child, on a store that answers every call. -/
theorem once_noFault_absent {S : Type} [DecidableEq S] (kind : Kind) (objs : List (Obj S))
    (obj : Obj S) (owner : OpenStackControlPlane) (desired : S)
    (hfind : objs.find? (hasKey (ObjectKeyFromObject obj)) = none) :
    CreateOrPatchOnce noFault kind objs obj (mutateWith owner desired) =
      match SetControllerReference owner obj.toObjectMeta with
      | Except.error e =>
        ⟨Except.error e, objs, [⟨Verb.get, kind, ObjectKeyFromObject obj⟩]⟩
      | Except.ok m =>
        ⟨Except.ok OperationResult.Created,
          objs ++ [⟨{ m with ResourceVersion := 1 }, desired⟩],
          [⟨Verb.get, kind, ObjectKeyFromObject obj⟩,
            ⟨Verb.create, kind, ObjectKeyFromObject obj⟩]⟩ := by
  unfold CreateOrPatchOnce
  simp only [get_noFault_none hfind, IsNotFound, decide_True, if_true]
  cases hm : SetControllerReference owner obj.toObjectMeta with
  | error e => simp [mutateWith, hm]
  | ok m =>
    obtain ⟨h1, h2, -, -⟩ := scr_ok_fields hm
    have hany : objs.any (hasKey (ObjectKeyFromObject
        ({ toObjectMeta := m, Spec := desired } : Obj S))) = false := by
      have hk : ObjectKeyFromObject ({ toObjectMeta := m, Spec := desired } : Obj S) =
          ObjectKeyFromObject obj := by simp [ObjectKeyFromObject, h1, h2]
      rw [hk, Bool.eq_false_iff]
      intro h
      obtain ⟨x, hx, hkx⟩ := List.any_eq_true.mp h
      exact (List.find?_eq_none.mp hfind) x hx hkx
    simp [mutateWith, hm, Create, noFault, hany]

/-- An object found under a key has that key. -/
theorem key_of_find {S : Type} {objs : List (Obj S)} {key : NamespacedName} {cur : Obj S}
    (h : objs.find? (hasKey key) = some cur) : ObjectKeyFromObject cur = key := by
  have := List.find?_some h
  simp only [hasKey, Bool.and_eq_true, decide_eq_true_eq] at this
  cases key
  simp only [ObjectKeyFromObject, this.1, this.2]

/-- One attempt on a present child, on a store that answers every call. -/
theorem once_noFault_present {S : Type} [DecidableEq S] (kind : Kind) (objs : List (Obj S))
    (obj : Obj S) (owner : OpenStackControlPlane) (desired : S) (cur : Obj S)
    (hfind : objs.find? (hasKey (ObjectKeyFromObject obj)) = some cur) :
    CreateOrPatchOnce noFault kind objs obj (mutateWith owner desired) =
      match SetControllerReference owner cur.toObjectMeta with
      | Except.error e =>
        ⟨Except.error e, objs, [⟨Verb.get, kind, ObjectKeyFromObject obj⟩]⟩
      | Except.ok m =>
        if m.OwnerReferences = cur.OwnerReferences ∧ desired = cur.Spec then
          ⟨Except.ok OperationResult.None, objs, [⟨Verb.get, kind, ObjectKeyFromObject obj⟩]⟩
        else
          ⟨Except.ok OperationResult.Updated,
            objs.map (fun x => if hasKey (ObjectKeyFromObject obj) x then
              ⟨{ m with ResourceVersion := cur.ResourceVersion + 1 }, desired⟩ else x),
            [⟨Verb.get, kind, ObjectKeyFromObject obj⟩,
              ⟨Verb.patch, kind, ObjectKeyFromObject obj⟩]⟩ := by
  unfold CreateOrPatchOnce
  simp only [get_noFault_some hfind]
  cases hm : SetControllerReference owner cur.toObjectMeta with
  | error e => simp [mutateWith, hm]
  | ok m =>
    obtain ⟨h1, h2, -, h4⟩ := scr_ok_fields hm
    have hk : ObjectKeyFromObject ({ toObjectMeta := m, Spec := desired } : Obj S) =
        ObjectKeyFromObject obj := by
      rw [← key_of_find hfind]
      simp [ObjectKeyFromObject, h1, h2]
    by_cases hsame : m.OwnerReferences = cur.OwnerReferences ∧ desired = cur.Spec
    · simp [mutateWith, hm, sameDesired, h1, h2, hsame.1, hsame.2]
    · have hs : sameDesired ({ toObjectMeta := m, Spec := desired } : Obj S) cur = false := by
        rw [Bool.eq_false_iff]
        intro h
        simp only [sameDesired, Bool.and_eq_true, decide_eq_true_eq] at h
        exact hsame ⟨h.1.2, h.2⟩
      simp only [mutateWith, hm, hs, Bool.false_eq_true, if_false, hsame]
      simp [Patch, noFault, hk, hfind, h4]

/-- On a store that answers every call an attempt fails only on ownership, after the fetch alone. -/
theorem once_noFault_final {S : Type} [DecidableEq S] (kind : Kind) (objs : List (Obj S))
    (obj : Obj S) (owner : OpenStackControlPlane) (desired : S) (e : StatusError)
    (h : (CreateOrPatchOnce noFault kind objs obj (mutateWith owner desired)).result =
      Except.error e) :
    e = StatusError.AlreadyOwned ∧
      CreateOrPatchOnce noFault kind objs obj (mutateWith owner desired) =
        ⟨Except.error e, objs, [⟨Verb.get, kind, ObjectKeyFromObject obj⟩]⟩ := by
  cases hfind : objs.find? (hasKey (ObjectKeyFromObject obj)) with
  | none =>
    rw [once_noFault_absent kind objs obj owner desired hfind] at h ⊢
    cases hm : SetControllerReference owner obj.toObjectMeta with
    | error e1 =>
      simp only [hm] at h ⊢
      cases h
      exact ⟨scr_error hm, rfl⟩
    | ok m =>
      simp only [hm] at h
      cases h
  | some cur =>
    rw [once_noFault_present kind objs obj owner desired cur hfind] at h ⊢
    cases hm : SetControllerReference owner cur.toObjectMeta with
    | error e1 =>
      simp only [hm] at h ⊢
      cases h
      exact ⟨scr_error hm, rfl⟩
    | ok m =>
      simp only [hm] at h
      split at h <;> cases h

/-- On a store that answers every call `CreateOrPatch` never retries. -/
theorem createOrPatch_noFault {S : Type} [DecidableEq S] (n : Nat) (kind : Kind)
    (objs : List (Obj S)) (obj : Obj S) (owner : OpenStackControlPlane) (desired : S) :
    CreateOrPatch noFault n kind objs obj (mutateWith owner desired) =
      CreateOrPatchOnce noFault kind objs obj (mutateWith owner desired) := by
  apply createOrPatch_of_final
  intro e he
  rw [(once_noFault_final kind objs obj owner desired e he).1]
  rfl

/-- On a store that answers every call a failed `CreateOrPatch` has fetched and changed nothing. -/
theorem step_error {S : Type} [DecidableEq S] (n : Nat) (kind : Kind)
    (objs : List (Obj S)) (obj : Obj S) (owner : OpenStackControlPlane) (desired : S)
    (e : StatusError)
    (h : (CreateOrPatch noFault n kind objs obj (mutateWith owner desired)).result =
      Except.error e) :
    CreateOrPatch noFault n kind objs obj (mutateWith owner desired) =
      ⟨Except.error e, objs, [⟨Verb.get, kind, ObjectKeyFromObject obj⟩]⟩ := by
  rw [createOrPatch_noFault] at h ⊢
  exact (once_noFault_final kind objs obj owner desired e h).2

/-- On a store that answers every call `CreateOrPatch` creates an absent child. -/
theorem step_absent {S : Type} [DecidableEq S] (n : Nat) (kind : Kind)
    (objs : List (Obj S)) (obj : Obj S) (owner : OpenStackControlPlane) (desired : S)
    (hfind : objs.find? (hasKey (ObjectKeyFromObject obj)) = none)
    (hrefs : obj.OwnerReferences = []) :
    CreateOrPatch noFault n kind objs obj (mutateWith owner desired) =
      ⟨Except.ok OperationResult.Created,
        objs ++ [⟨{ obj.toObjectMeta with
          ResourceVersion := 1, OwnerReferences := [controllerRef owner] }, desired⟩],
        [⟨Verb.get, kind, ObjectKeyFromObject obj⟩,
          ⟨Verb.create, kind, ObjectKeyFromObject obj⟩]⟩ := by
  rw [createOrPatch_noFault, once_noFault_absent kind objs obj owner desired hfind]
  have hm : SetControllerReference owner obj.toObjectMeta =
      Except.ok { obj.toObjectMeta with OwnerReferences := [controllerRef owner] } := by
    simp [SetControllerReference, GetControllerOf, hrefs]
  simp only [hm]

/-- On a store that answers every call `CreateOrPatch` leaves a converged child alone. -/
theorem step_converged {S : Type} [DecidableEq S] (n : Nat) (kind : Kind)
    (objs : List (Obj S)) (obj : Obj S) (owner : OpenStackControlPlane) (desired : S)
    (h : Converged owner desired (ObjectKeyFromObject obj) objs) :
    CreateOrPatch noFault n kind objs obj (mutateWith owner desired) =
      ⟨Except.ok OperationResult.None, objs, [⟨Verb.get, kind, ObjectKeyFromObject obj⟩]⟩ := by
  obtain ⟨c, hfind, hs, r, hr, hu⟩ := h
  rw [createOrPatch_noFault, once_noFault_present kind objs obj owner desired c hfind]
  simp [scr_of_controller hr hu, hs]

/-- On a store that answers every call `CreateOrPatch` updates a drifted child of the owner. -/
theorem step_drift {S : Type} [DecidableEq S] (n : Nat) (kind : Kind)
    (objs : List (Obj S)) (obj : Obj S) (owner : OpenStackControlPlane) (desired : S)
    (cur : Obj S) (r : OwnerReference)
    (hfind : objs.find? (hasKey (ObjectKeyFromObject obj)) = some cur)
    (hr : GetControllerOf cur.toObjectMeta = some r) (hu : r.UID = owner.UID)
    (hs : cur.Spec ≠ desired) :
    CreateOrPatch noFault n kind objs obj (mutateWith owner desired) =
      ⟨Except.ok OperationResult.Updated,
        objs.map (fun x => if hasKey (ObjectKeyFromObject obj) x then
          ⟨{ cur.toObjectMeta with ResourceVersion := cur.ResourceVersion + 1 }, desired⟩
          else x),
        [⟨Verb.get, kind, ObjectKeyFromObject obj⟩,
          ⟨Verb.patch, kind, ObjectKeyFromObject obj⟩]⟩ := by
  rw [createOrPatch_noFault, once_noFault_present kind objs obj owner desired cur hfind]
  have hne : ¬ desired = cur.Spec := fun h => hs h.symm
  simp [scr_of_controller hr hu, hne]

/-! ### The reconciler in terms of its two steps -/

/-- The method `reconcileNormal` in terms of its two steps. -/
theorem reconcileNormal_eq (r : OpenStackControlPlaneReconciler) (s : Store)
    (inst : OpenStackControlPlane) (helper : Helper) :
    reconcileNormal r s inst helper =
      match (convergeMariaDB r s inst helper).result with
      | Except.error err =>
        ⟨Except.error err, { s with mariadbs := (convergeMariaDB r s inst helper).objs },
          (convergeMariaDB r s inst helper).calls⟩
      | Except.ok _ =>
        match (convergeKeystoneAPI r s inst helper).result with
        | Except.error err =>
          ⟨Except.error err,
            { s with mariadbs := (convergeMariaDB r s inst helper).objs,
                     keystoneapis := (convergeKeystoneAPI r s inst helper).objs },
            (convergeMariaDB r s inst helper).calls ++ (convergeKeystoneAPI r s inst helper).calls⟩
        | Except.ok _ =>
          ⟨Except.ok { Requeue := false, RequeueAfter := 0 },
            { s with mariadbs := (convergeMariaDB r s inst helper).objs,
                     keystoneapis := (convergeKeystoneAPI r s inst helper).objs },
            (convergeMariaDB r s inst helper).calls ++
              (convergeKeystoneAPI r s inst helper).calls⟩ := rfl

/-- The key of the MariaDB object handed to `CreateOrPatch`. -/
theorem mariadbObject_key (inst : OpenStackControlPlane) :
    ObjectKeyFromObject (mariadbObject inst) = mariadbKey inst := rfl

/-- The key of the KeystoneAPI object handed to `CreateOrPatch`. -/
theorem keystoneAPIObject_key (inst : OpenStackControlPlane) :
    ObjectKeyFromObject (keystoneAPIObject inst) = keystoneKey inst := rfl

/-- The calls of the MariaDB step are on the MariaDB child and start with its fetch. -/
theorem convergeMariaDB_calls (r : OpenStackControlPlaneReconciler) (s : Store)
    (inst : OpenStackControlPlane) (helper : Helper) :
    (∀ c ∈ (convergeMariaDB r s inst helper).calls,
      c.kind = Kind.MariaDB ∧ c.key = mariadbKey inst) ∧
    ∃ t, (convergeMariaDB r s inst helper).calls =
      ⟨Verb.get, Kind.MariaDB, mariadbKey inst⟩ :: t :=
  ⟨createOrPatch_calls _ _ _ _ _ _, createOrPatch_calls_head _ _ _ _ _ _⟩

/-- The calls of the KeystoneAPI step are on the KeystoneAPI child and start with its fetch. -/
theorem convergeKeystoneAPI_calls (r : OpenStackControlPlaneReconciler) (s : Store)
    (inst : OpenStackControlPlane) (helper : Helper) :
    (∀ c ∈ (convergeKeystoneAPI r s inst helper).calls,
      c.kind = Kind.KeystoneAPI ∧ c.key = keystoneKey inst) ∧
    ∃ t, (convergeKeystoneAPI r s inst helper).calls =
      ⟨Verb.get, Kind.KeystoneAPI, keystoneKey inst⟩ :: t :=
  ⟨createOrPatch_calls _ _ _ _ _ _, createOrPatch_calls_head _ _ _ _ _ _⟩

/-- A filter that every element passes keeps the list. -/
theorem filter_of_all {p : Call → Bool} {l : List Call} (h : ∀ c ∈ l, p c = true) :
    l.filter p = l := List.filter_eq_self.mpr h

/-- A filter that no element passes gives the empty list. -/
theorem filter_of_none {p : Call → Bool} {l : List Call} (h : ∀ c ∈ l, p c = false) :
    l.filter p = [] := by
  rw [List.filter_eq_nil_iff]
  intro c hc
  simp [h c hc]

/-- The MariaDB step issues calls on MariaDB only. -/
theorem callsOn_mariadb_step (r : OpenStackControlPlaneReconciler) (s : Store)
    (inst : OpenStackControlPlane) (helper : Helper) :
    callsOn Kind.MariaDB (convergeMariaDB r s inst helper).calls =
        (convergeMariaDB r s inst helper).calls ∧
      callsOn Kind.KeystoneAPI (convergeMariaDB r s inst helper).calls = [] := by
  have h := (convergeMariaDB_calls r s inst helper).1
  constructor
  · exact filter_of_all fun c hc => by simp [(h c hc).1]
  · exact filter_of_none fun c hc => by simp [(h c hc).1]

/-- The KeystoneAPI step issues calls on KeystoneAPI only. -/
theorem callsOn_keystone_step (r : OpenStackControlPlaneReconciler) (s : Store)
    (inst : OpenStackControlPlane) (helper : Helper) :
    callsOn Kind.KeystoneAPI (convergeKeystoneAPI r s inst helper).calls =
        (convergeKeystoneAPI r s inst helper).calls ∧
      callsOn Kind.MariaDB (convergeKeystoneAPI r s inst helper).calls = [] := by
  have h := (convergeKeystoneAPI_calls r s inst helper).1
  constructor
  · exact filter_of_all fun c hc => by simp [(h c hc).1]
  · exact filter_of_none fun c hc => by simp [(h c hc).1]

/-- The calls of a run are those of the MariaDB step, followed, when that
step succeeds, by those of the KeystoneAPI step. -/
theorem reconcileNormal_calls (r : OpenStackControlPlaneReconciler) (s : Store)
    (inst : OpenStackControlPlane) (helper : Helper) :
    (reconcileNormal r s inst helper).calls = (convergeMariaDB r s inst helper).calls ∨
    (reconcileNormal r s inst helper).calls =
      (convergeMariaDB r s inst helper).calls ++ (convergeKeystoneAPI r s inst helper).calls := by
  rw [reconcileNormal_eq]
  split
  · exact Or.inl rfl
  · split
    · exact Or.inr rfl
    · exact Or.inr rfl

/-- After a run without error both children are converged. -/
theorem reconcileNormal_ok_converged (r : OpenStackControlPlaneReconciler) (s : Store)
    (inst : OpenStackControlPlane) (helper : Helper) (res : Result)
    (h : (reconcileNormal r s inst helper).result = Except.ok res) :
    Converged helper.GetBeforeObject (desiredMariaDBSpec inst) (mariadbKey inst)
        (reconcileNormal r s inst helper).store.mariadbs ∧
      Converged helper.GetBeforeObject (desiredKeystoneAPISpec inst) (keystoneKey inst)
        (reconcileNormal r s inst helper).store.keystoneapis := by
  rw [reconcileNormal_eq] at h ⊢
  cases hm : (convergeMariaDB r s inst helper).result with
  | error e => simp only [hm] at h; cases h
  | ok rm =>
    cases hk : (convergeKeystoneAPI r s inst helper).result with
    | error e => simp only [hm, hk] at h; cases h
    | ok rk =>
      simp only [hm, hk]
      constructor
      · exact createOrPatch_ok_post r.fault r.retries Kind.MariaDB s.mariadbs (mariadbObject inst)
          helper.GetBeforeObject (desiredMariaDBSpec inst) rm hm
      · exact createOrPatch_ok_post r.fault r.retries Kind.KeystoneAPI s.keystoneapis
          (keystoneAPIObject inst) helper.GetBeforeObject (desiredKeystoneAPISpec inst) rk hk

/-- The storage class of the desired MariaDB spec: that of the template, or
that of the instance when the template leaves it empty. -/
theorem desiredMariaDBSpec_storageClass (inst : OpenStackControlPlane) :
    (desiredMariaDBSpec inst).StorageClass =
      (if inst.Spec.MariadbTemplate.StorageClass = "" then inst.Spec.StorageClass
        else inst.Spec.MariadbTemplate.StorageClass) := by
  unfold desiredMariaDBSpec
  by_cases h1 : inst.Spec.MariadbTemplate.Secret = "" <;>
    by_cases h2 : inst.Spec.MariadbTemplate.StorageClass = "" <;> simp [h1, h2]

/-! ## Claims -/

/-- Claim C1: when the store answers the fetch of the parent with not found,
`Reconcile` returns the empty result and no error, leaves the store as it
was, and issues the fetch of the parent and nothing else: no write, and no
call on a MariaDB or a KeystoneAPI. -/
theorem Reconcile_parent_not_found (r : OpenStackControlPlaneReconciler) (s : Store)
    (req : NamespacedName)
    (h : Get r.fault Kind.OpenStackControlPlane s.controlplanes req =
      Except.error StatusError.NotFound) :
    (Reconcile r s req).result = Except.ok { Requeue := false, RequeueAfter := 0 } ∧
      (Reconcile r s req).store = s ∧
      (Reconcile r s req).calls = [⟨Verb.get, Kind.OpenStackControlPlane, req⟩] ∧
      writes (Reconcile r s req).calls = [] ∧
      callsOn Kind.MariaDB (Reconcile r s req).calls = [] ∧
      callsOn Kind.KeystoneAPI (Reconcile r s req).calls = [] := by
  unfold Reconcile
  rw [h]
  simp [IsNotFound, writes, callsOn]

/-- Claim C2: the desired MariaDB spec has the storage class of the instance
when the template leaves it empty, and the storage class of the template
unchanged otherwise.  The MariaDB mutate function of `reconcileNormal` writes
exactly this spec: on the fresh object it succeeds with it, and on any object
it either gives it or fails on ownership. -/
theorem mariadb_storageClass_inherited (inst : OpenStackControlPlane) (helper : Helper)
    (mariadb : MariaDB) :
    (desiredMariaDBSpec inst).StorageClass =
        (if inst.Spec.MariadbTemplate.StorageClass = "" then inst.Spec.StorageClass
          else inst.Spec.MariadbTemplate.StorageClass) ∧
      (mariadbMutate inst helper (mariadbObject inst)).map (fun m => m.Spec) =
        Except.ok (desiredMariaDBSpec inst) ∧
      ((mariadbMutate inst helper mariadb).map (fun m => m.Spec) =
          Except.ok (desiredMariaDBSpec inst) ∨
        mariadbMutate inst helper mariadb = Except.error StatusError.AlreadyOwned) := by
  refine ⟨?_, ?_, ?_⟩
  · exact desiredMariaDBSpec_storageClass inst
  · simp [mariadbMutate, mariadbObject, SetControllerReference, GetControllerOf, Except.map]
  · unfold mariadbMutate
    cases hm : SetControllerReference helper.GetBeforeObject mariadb.toObjectMeta with
    | error e => right; simp [scr_error hm]
    | ok m => left; simp [Except.map]

/-- Claim C10: the desired KeystoneAPI spec has `DatabaseInstance` equal to
`openstack` when the template leaves it empty, and the value of the template
unchanged otherwise.  `openstack` is the name of the MariaDB child of the same
run: the run starts by fetching the MariaDB of that name, and every call of the
run on a MariaDB is on that name.  The KeystoneAPI mutate function writes this
spec on the fresh object. -/
theorem keystone_databaseInstance_default (r : OpenStackControlPlaneReconciler) (s : Store)
    (inst : OpenStackControlPlane) (helper : Helper) :
    (desiredKeystoneAPISpec inst).DatabaseInstance =
        (if inst.Spec.KeystoneTemplate.DatabaseInstance = "" then "openstack"
          else inst.Spec.KeystoneTemplate.DatabaseInstance) ∧
      (∃ t, (reconcileNormal r s inst helper).calls =
        ⟨Verb.get, Kind.MariaDB, ⟨inst.Namespace, "openstack"⟩⟩ :: t) ∧
      (∀ c ∈ (reconcileNormal r s inst helper).calls, c.kind = Kind.MariaDB →
        c.key.Name = "openstack") ∧
      (keystoneMutate inst helper (keystoneAPIObject inst)).map (fun k => k.Spec) =
        Except.ok (desiredKeystoneAPISpec inst) := by
  refine ⟨?_, ?_, ?_, ?_⟩
  · unfold desiredKeystoneAPISpec
    by_cases h1 : inst.Spec.KeystoneTemplate.Secret = "" <;>
      by_cases h2 : inst.Spec.KeystoneTemplate.DatabaseInstance = "" <;> simp [h1, h2]
  · obtain ⟨t, ht⟩ := (convergeMariaDB_calls r s inst helper).2
    rcases reconcileNormal_calls r s inst helper with h | h
    · exact ⟨t, by rw [h, ht]; rfl⟩
    · exact ⟨t ++ (convergeKeystoneAPI r s inst helper).calls, by rw [h, ht]; rfl⟩
  · intro c hc hkind
    rcases reconcileNormal_calls r s inst helper with h | h
    · rw [h] at hc
      rw [((convergeMariaDB_calls r s inst helper).1 c hc).2]; rfl
    · rw [h, List.mem_append] at hc
      rcases hc with hc | hc
      · rw [((convergeMariaDB_calls r s inst helper).1 c hc).2]; rfl
      · have := ((convergeKeystoneAPI_calls r s inst helper).1 c hc).1
        rw [this] at hkind; cases hkind
  · simp [keystoneMutate, keystoneAPIObject, SetControllerReference, GetControllerOf, Except.map]

/-- Claim C3: whatever the name and spec of the parent, a run of
`reconcileNormal` starts with the MariaDB `openstack` of the namespace of the
parent, every call it issues is on that MariaDB or on the KeystoneAPI
`keystone` of the same namespace, and after a run without error the store
holds both children under these names. -/
theorem children_fixed_identity (r : OpenStackControlPlaneReconciler) (s : Store)
    (inst : OpenStackControlPlane) (helper : Helper) :
    (∃ t, (reconcileNormal r s inst helper).calls =
        ⟨Verb.get, Kind.MariaDB, ⟨inst.Namespace, "openstack"⟩⟩ :: t) ∧
      (∀ c ∈ (reconcileNormal r s inst helper).calls,
        (c.kind = Kind.MariaDB ∧ c.key = ⟨inst.Namespace, "openstack"⟩) ∨
          (c.kind = Kind.KeystoneAPI ∧ c.key = ⟨inst.Namespace, "keystone"⟩)) ∧
      (∀ res, (reconcileNormal r s inst helper).result = Except.ok res →
        (∃ m, (reconcileNormal r s inst helper).store.mariadbs.find?
            (hasKey ⟨inst.Namespace, "openstack"⟩) = some m ∧
          m.Name = "openstack" ∧ m.Namespace = inst.Namespace) ∧
        (∃ k, (reconcileNormal r s inst helper).store.keystoneapis.find?
            (hasKey ⟨inst.Namespace, "keystone"⟩) = some k ∧
          k.Name = "keystone" ∧ k.Namespace = inst.Namespace)) := by
  refine ⟨?_, ?_, ?_⟩
  · obtain ⟨t, ht⟩ := (convergeMariaDB_calls r s inst helper).2
    rcases reconcileNormal_calls r s inst helper with h | h
    · exact ⟨t, by rw [h, ht]; rfl⟩
    · exact ⟨t ++ (convergeKeystoneAPI r s inst helper).calls, by rw [h, ht]; rfl⟩
  · intro c hc
    rcases reconcileNormal_calls r s inst helper with h | h
    · rw [h] at hc
      exact Or.inl ((convergeMariaDB_calls r s inst helper).1 c hc)
    · rw [h, List.mem_append] at hc
      rcases hc with hc | hc
      · exact Or.inl ((convergeMariaDB_calls r s inst helper).1 c hc)
      · exact Or.inr ((convergeKeystoneAPI_calls r s inst helper).1 c hc)
  · intro res hres
    obtain ⟨⟨m, hm, -, -⟩, ⟨k, hk, -, -⟩⟩ := reconcileNormal_ok_converged r s inst helper res hres
    refine ⟨⟨m, hm, ?_, ?_⟩, ⟨k, hk, ?_, ?_⟩⟩
    · have := key_of_find hm
      exact congrArg NamespacedName.Name this
    · have := key_of_find hm
      exact congrArg NamespacedName.Namespace this
    · have := key_of_find hk
      exact congrArg NamespacedName.Name this
    · have := key_of_find hk
      exact congrArg NamespacedName.Namespace this

/-- Claim C7: in every run of `reconcileNormal` the calls on the MariaDB child
come first and the calls on the KeystoneAPI child after them, and when
converging the MariaDB child fails the run returns that error, issues no call
on the KeystoneAPI child and leaves the KeystoneAPI collection as it was. -/
theorem mariadb_before_keystone (r : OpenStackControlPlaneReconciler) (s : Store)
    (inst : OpenStackControlPlane) (helper : Helper) :
    (reconcileNormal r s inst helper).calls =
        callsOn Kind.MariaDB (reconcileNormal r s inst helper).calls ++
          callsOn Kind.KeystoneAPI (reconcileNormal r s inst helper).calls ∧
      (∀ e, (convergeMariaDB r s inst helper).result = Except.error e →
        (reconcileNormal r s inst helper).result = Except.error e ∧
          callsOn Kind.KeystoneAPI (reconcileNormal r s inst helper).calls = [] ∧
          (reconcileNormal r s inst helper).store.keystoneapis = s.keystoneapis) := by
  obtain ⟨hm1, hm2⟩ := callsOn_mariadb_step r s inst helper
  obtain ⟨hk1, hk2⟩ := callsOn_keystone_step r s inst helper
  constructor
  · rcases reconcileNormal_calls r s inst helper with h | h
    · rw [h, hm1, hm2, List.append_nil]
    · rw [h]
      unfold callsOn at hm1 hm2 hk1 hk2 ⊢
      rw [List.filter_append, List.filter_append, hm1, hm2, hk1, hk2]
      simp
  · intro e he
    rw [reconcileNormal_eq]
    simp only [he]
    exact ⟨trivial, hm2, trivial⟩

/-- Claim C5: when the MariaDB child `openstack` exists and its controller is
an object other than the parent, `reconcileNormal` returns an error and the
store is unchanged; when the KeystoneAPI child `keystone` exists and its
controller is an object other than the parent, `reconcileNormal` returns an
error and the KeystoneAPI collection is unchanged.  The owner and spec of the
child are never overwritten. -/
theorem other_owner_not_overwritten (r : OpenStackControlPlaneReconciler) (s : Store)
    (inst : OpenStackControlPlane) :
    (∀ (cur : MariaDB) (c : OwnerReference),
        s.mariadbs.find? (hasKey ⟨inst.Namespace, "openstack"⟩) = some cur →
        GetControllerOf cur.toObjectMeta = some c → c.UID ≠ inst.UID →
        (∃ e, (reconcileNormal r s inst ⟨inst⟩).result = Except.error e) ∧
          (reconcileNormal r s inst ⟨inst⟩).store = s) ∧
      (∀ (cur : KeystoneAPI) (c : OwnerReference),
        s.keystoneapis.find? (hasKey ⟨inst.Namespace, "keystone"⟩) = some cur →
        GetControllerOf cur.toObjectMeta = some c → c.UID ≠ inst.UID →
        (∃ e, (reconcileNormal r s inst ⟨inst⟩).result = Except.error e) ∧
          (reconcileNormal r s inst ⟨inst⟩).store.keystoneapis = s.keystoneapis) := by
  constructor
  · intro cur c hfind hc hu
    obtain ⟨⟨e, he⟩, ho⟩ := createOrPatch_other_owned r.fault r.retries Kind.MariaDB s.mariadbs
      (mariadbObject inst) inst (desiredMariaDBSpec inst) cur c hfind hc hu
    have he1 : (convergeMariaDB r s inst ⟨inst⟩).result = Except.error e := he
    have ho1 : (convergeMariaDB r s inst ⟨inst⟩).objs = s.mariadbs := ho
    rw [reconcileNormal_eq]
    simp only [he1, ho1]
    exact ⟨⟨e, rfl⟩, trivial⟩
  · intro cur c hfind hc hu
    obtain ⟨⟨e, he⟩, ho⟩ := createOrPatch_other_owned r.fault r.retries Kind.KeystoneAPI
      s.keystoneapis (keystoneAPIObject inst) inst (desiredKeystoneAPISpec inst) cur c hfind hc hu
    have he1 : (convergeKeystoneAPI r s inst ⟨inst⟩).result = Except.error e := he
    have ho1 : (convergeKeystoneAPI r s inst ⟨inst⟩).objs = s.keystoneapis := ho
    rw [reconcileNormal_eq]
    cases hm : (convergeMariaDB r s inst ⟨inst⟩).result with
    | error e1 => exact ⟨⟨e1, rfl⟩, rfl⟩
    | ok rm =>
      simp only [he1, ho1]
      exact ⟨⟨e, rfl⟩, trivial⟩

/-- The writes of two traces in sequence. -/
theorem writesTo_append (k : Kind) (l1 l2 : List Call) :
    writesTo k (l1 ++ l2) = writesTo k l1 ++ writesTo k l2 := by
  unfold writesTo; exact List.filter_append _ _

/-- A trace on other kinds holds no write to a kind. -/
theorem writesTo_other {k : Kind} {l : List Call} (h : ∀ c ∈ l, c.kind ≠ k) :
    writesTo k l = [] :=
  filter_of_none fun c hc => by simp [h c hc]

/-- The MariaDB step writes nothing to KeystoneAPI. -/
theorem writesTo_mariadb_step (r : OpenStackControlPlaneReconciler) (s : Store)
    (inst : OpenStackControlPlane) (helper : Helper) :
    writesTo Kind.KeystoneAPI (convergeMariaDB r s inst helper).calls = [] :=
  writesTo_other fun c hc => by
    rw [((convergeMariaDB_calls r s inst helper).1 c hc).1]; decide

/-- The KeystoneAPI step writes nothing to MariaDB. -/
theorem writesTo_keystone_step (r : OpenStackControlPlaneReconciler) (s : Store)
    (inst : OpenStackControlPlane) (helper : Helper) :
    writesTo Kind.MariaDB (convergeKeystoneAPI r s inst helper).calls = [] :=
  writesTo_other fun c hc => by
    rw [((convergeKeystoneAPI_calls r s inst helper).1 c hc).1]; decide

/-- The MariaDB step on a store that answers every call. -/
theorem convergeMariaDB_noFault (n : Nat) (s : Store) (inst owner : OpenStackControlPlane) :
    convergeMariaDB ⟨noFault, n⟩ s inst ⟨owner⟩ =
      CreateOrPatch noFault n Kind.MariaDB s.mariadbs (mariadbObject inst)
        (mutateWith owner (desiredMariaDBSpec inst)) := rfl

/-- The KeystoneAPI step on a store that answers every call. -/
theorem convergeKeystoneAPI_noFault (n : Nat) (s : Store) (inst owner : OpenStackControlPlane) :
    convergeKeystoneAPI ⟨noFault, n⟩ s inst ⟨owner⟩ =
      CreateOrPatch noFault n Kind.KeystoneAPI s.keystoneapis (keystoneAPIObject inst)
        (mutateWith owner (desiredKeystoneAPISpec inst)) := rfl

/-- On a store that answers every call, a run on a store where both children
are converged reads each child once and writes nothing. -/
theorem reconcileNormal_converged (n : Nat) (s : Store) (inst owner : OpenStackControlPlane)
    (hm : Converged owner (desiredMariaDBSpec inst) (mariadbKey inst) s.mariadbs)
    (hk : Converged owner (desiredKeystoneAPISpec inst) (keystoneKey inst) s.keystoneapis) :
    reconcileNormal ⟨noFault, n⟩ s inst ⟨owner⟩ =
      ⟨Except.ok { Requeue := false, RequeueAfter := 0 }, s,
        [⟨Verb.get, Kind.MariaDB, mariadbKey inst⟩,
          ⟨Verb.get, Kind.KeystoneAPI, keystoneKey inst⟩]⟩ := by
  rw [reconcileNormal_eq, convergeMariaDB_noFault, convergeKeystoneAPI_noFault,
    step_converged n Kind.MariaDB s.mariadbs (mariadbObject inst) owner _ hm,
    step_converged n Kind.KeystoneAPI s.keystoneapis (keystoneAPIObject inst) owner _ hk]
  rfl

/-- On a store that answers every call, running again after a run changes
nothing and writes nothing. -/
theorem reconcileNormal_again (n : Nat) (s : Store) (inst : OpenStackControlPlane) :
    writes (reconcileNormal ⟨noFault, n⟩ (reconcileNormal ⟨noFault, n⟩ s inst ⟨inst⟩).store
        inst ⟨inst⟩).calls = [] ∧
      (reconcileNormal ⟨noFault, n⟩ (reconcileNormal ⟨noFault, n⟩ s inst ⟨inst⟩).store
        inst ⟨inst⟩).store = (reconcileNormal ⟨noFault, n⟩ s inst ⟨inst⟩).store := by
  cases hres : (reconcileNormal ⟨noFault, n⟩ s inst ⟨inst⟩).result with
  | ok res =>
    obtain ⟨hm, hk⟩ := reconcileNormal_ok_converged _ s inst ⟨inst⟩ res hres
    rw [reconcileNormal_converged n _ inst inst hm hk]
    exact ⟨rfl, rfl⟩
  | error e =>
    rw [reconcileNormal_eq] at hres
    cases hM : (convergeMariaDB ⟨noFault, n⟩ s inst ⟨inst⟩).result with
    | error e1 =>
      have h1 := step_error n Kind.MariaDB s.mariadbs (mariadbObject inst) inst
        (desiredMariaDBSpec inst) e1 hM
      have ha : reconcileNormal ⟨noFault, n⟩ s inst ⟨inst⟩ =
          ⟨Except.error e1, s, [⟨Verb.get, Kind.MariaDB, mariadbKey inst⟩]⟩ := by
        rw [reconcileNormal_eq, convergeMariaDB_noFault, h1]
        rfl
      rw [ha]
      simp only []
      rw [ha]
      exact ⟨rfl, rfl⟩
    | ok rm =>
      simp only [hM] at hres
      cases hK : (convergeKeystoneAPI ⟨noFault, n⟩ s inst ⟨inst⟩).result with
      | ok rk => simp only [hK] at hres; cases hres
      | error e2 =>
        have hpost : Converged inst (desiredMariaDBSpec inst) (mariadbKey inst)
            (convergeMariaDB ⟨noFault, n⟩ s inst ⟨inst⟩).objs :=
          createOrPatch_ok_post noFault n Kind.MariaDB s.mariadbs (mariadbObject inst)
            inst (desiredMariaDBSpec inst) rm hM
        have h2 := step_error n Kind.KeystoneAPI s.keystoneapis (keystoneAPIObject inst) inst
          (desiredKeystoneAPISpec inst) e2 hK
        have ha : (reconcileNormal ⟨noFault, n⟩ s inst ⟨inst⟩).store =
            { s with mariadbs := (convergeMariaDB ⟨noFault, n⟩ s inst ⟨inst⟩).objs } := by
          rw [reconcileNormal_eq]
          simp only [hM]
          rw [convergeKeystoneAPI_noFault, h2]
        rw [ha]
        have hb : reconcileNormal ⟨noFault, n⟩
            { s with mariadbs := (convergeMariaDB ⟨noFault, n⟩ s inst ⟨inst⟩).objs } inst ⟨inst⟩ =
            ⟨Except.error e2,
              { s with mariadbs := (convergeMariaDB ⟨noFault, n⟩ s inst ⟨inst⟩).objs },
              [⟨Verb.get, Kind.MariaDB, mariadbKey inst⟩,
                ⟨Verb.get, Kind.KeystoneAPI, keystoneKey inst⟩]⟩ := by
          rw [reconcileNormal_eq, convergeMariaDB_noFault, convergeKeystoneAPI_noFault]
          simp only []
          rw [step_converged n Kind.MariaDB _ (mariadbObject inst) inst _ hpost, h2]
          rfl
        rw [hb]
        exact ⟨rfl, rfl⟩

/-- Claim C4, as amended: on a store that answers every call, a first run of
`reconcileNormal` from a store without the MariaDB child writes to MariaDB
exactly once, the create; from a store without the KeystoneAPI child it writes
to KeystoneAPI exactly once, the create, provided the run returns no error;
and a second run with the parent unchanged writes nothing and leaves the store
as the first run left it. -/
theorem reconcileNormal_idempotent (n : Nat) (s : Store) (inst : OpenStackControlPlane) :
    (s.mariadbs.find? (hasKey ⟨inst.Namespace, "openstack"⟩) = none →
        writesTo Kind.MariaDB (reconcileNormal ⟨noFault, n⟩ s inst ⟨inst⟩).calls =
          [⟨Verb.create, Kind.MariaDB, ⟨inst.Namespace, "openstack"⟩⟩]) ∧
      (s.keystoneapis.find? (hasKey ⟨inst.Namespace, "keystone"⟩) = none →
        (∃ res, (reconcileNormal ⟨noFault, n⟩ s inst ⟨inst⟩).result = Except.ok res) →
        writesTo Kind.KeystoneAPI (reconcileNormal ⟨noFault, n⟩ s inst ⟨inst⟩).calls =
          [⟨Verb.create, Kind.KeystoneAPI, ⟨inst.Namespace, "keystone"⟩⟩]) ∧
      writes (reconcileNormal ⟨noFault, n⟩ (reconcileNormal ⟨noFault, n⟩ s inst ⟨inst⟩).store
        inst ⟨inst⟩).calls = [] ∧
      (reconcileNormal ⟨noFault, n⟩ (reconcileNormal ⟨noFault, n⟩ s inst ⟨inst⟩).store
        inst ⟨inst⟩).store = (reconcileNormal ⟨noFault, n⟩ s inst ⟨inst⟩).store := by
  refine ⟨?_, ?_, reconcileNormal_again n s inst⟩
  · intro hfind
    have hM := step_absent n Kind.MariaDB s.mariadbs (mariadbObject inst) inst
      (desiredMariaDBSpec inst) hfind rfl
    have hc : (reconcileNormal ⟨noFault, n⟩ s inst ⟨inst⟩).calls =
        (convergeMariaDB ⟨noFault, n⟩ s inst ⟨inst⟩).calls ++
          (convergeKeystoneAPI ⟨noFault, n⟩ s inst ⟨inst⟩).calls := by
      rw [reconcileNormal_eq, convergeMariaDB_noFault, hM]
      simp only []
      split <;> rfl
    rw [hc, writesTo_append, writesTo_keystone_step, convergeMariaDB_noFault, hM]
    rfl
  · intro hfind hres
    obtain ⟨res, hres⟩ := hres
    have hK := step_absent n Kind.KeystoneAPI s.keystoneapis (keystoneAPIObject inst) inst
      (desiredKeystoneAPISpec inst) hfind rfl
    have hc : (reconcileNormal ⟨noFault, n⟩ s inst ⟨inst⟩).calls =
        (convergeMariaDB ⟨noFault, n⟩ s inst ⟨inst⟩).calls ++
          (convergeKeystoneAPI ⟨noFault, n⟩ s inst ⟨inst⟩).calls := by
      rw [reconcileNormal_eq] at hres ⊢
      cases hM : (convergeMariaDB ⟨noFault, n⟩ s inst ⟨inst⟩).result with
      | error e => simp only [hM] at hres; cases hres
      | ok rm =>
        simp only []
        split <;> rfl
    rw [hc, writesTo_append, writesTo_mariadb_step, convergeKeystoneAPI_noFault, hK]
    rfl

/-- When the MariaDB step succeeds, the run holds the calls and collections of both steps. -/
theorem reconcileNormal_of_mariadb_ok (r : OpenStackControlPlaneReconciler) (s : Store)
    (inst : OpenStackControlPlane) (helper : Helper) (rm : OperationResult)
    (hM : (convergeMariaDB r s inst helper).result = Except.ok rm) :
    (reconcileNormal r s inst helper).calls =
        (convergeMariaDB r s inst helper).calls ++ (convergeKeystoneAPI r s inst helper).calls ∧
      (reconcileNormal r s inst helper).store.mariadbs = (convergeMariaDB r s inst helper).objs ∧
      (reconcileNormal r s inst helper).store.keystoneapis =
        (convergeKeystoneAPI r s inst helper).objs := by
  rw [reconcileNormal_eq]
  simp only [hM]
  split <;> exact ⟨rfl, rfl, rfl⟩

/-- In a run without error the MariaDB step succeeded. -/
theorem mariadb_ok_of_ok (r : OpenStackControlPlaneReconciler) (s : Store)
    (inst : OpenStackControlPlane) (helper : Helper) (res : Result)
    (h : (reconcileNormal r s inst helper).result = Except.ok res) :
    ∃ rm, (convergeMariaDB r s inst helper).result = Except.ok rm := by
  rw [reconcileNormal_eq] at h
  cases hM : (convergeMariaDB r s inst helper).result with
  | error e => simp only [hM] at h; cases h
  | ok rm => exact ⟨rm, rfl⟩

/-- After an update the key holds the updated object. -/
theorem find_updated {S : Type} (key : NamespacedName) (objs : List (Obj S)) (cur : Obj S)
    (desired : S) (hfind : objs.find? (hasKey key) = some cur) :
    (objs.map fun x => if hasKey key x then
        (⟨{ cur.toObjectMeta with ResourceVersion := cur.ResourceVersion + 1 }, desired⟩ : Obj S)
        else x).find? (hasKey key) =
      some ⟨{ cur.toObjectMeta with ResourceVersion := cur.ResourceVersion + 1 }, desired⟩ := by
  apply find_replace key _ _ objs cur hfind
  have := List.find?_some hfind
  simpa [hasKey] using this

/-- Claim C6, as amended: on a store that answers every call, when the MariaDB
child exists, is controlled by the parent and has a spec other than the
desired one, `reconcileNormal` issues exactly one update to it, after which its
spec is the desired spec, its owner references are as before, and every part
of the spec that agreed with the desired spec is unchanged.  The same holds
for the KeystoneAPI child provided the run returns no error. -/
theorem drift_corrected (n : Nat) (s : Store) (inst : OpenStackControlPlane) :
    (∀ (cur : MariaDB) (c : OwnerReference),
        s.mariadbs.find? (hasKey ⟨inst.Namespace, "openstack"⟩) = some cur →
        GetControllerOf cur.toObjectMeta = some c → c.UID = inst.UID →
        cur.Spec ≠ desiredMariaDBSpec inst →
        writesTo Kind.MariaDB (reconcileNormal ⟨noFault, n⟩ s inst ⟨inst⟩).calls =
            [⟨Verb.patch, Kind.MariaDB, ⟨inst.Namespace, "openstack"⟩⟩] ∧
          ∃ m, (reconcileNormal ⟨noFault, n⟩ s inst ⟨inst⟩).store.mariadbs.find?
              (hasKey ⟨inst.Namespace, "openstack"⟩) = some m ∧
            m.Spec = desiredMariaDBSpec inst ∧
            m.OwnerReferences = cur.OwnerReferences ∧
            ∀ (α : Type) (F : MariaDBSpec → α),
              F cur.Spec = F (desiredMariaDBSpec inst) → F m.Spec = F cur.Spec) ∧
      (∀ (cur : KeystoneAPI) (c : OwnerReference),
        s.keystoneapis.find? (hasKey ⟨inst.Namespace, "keystone"⟩) = some cur →
        GetControllerOf cur.toObjectMeta = some c → c.UID = inst.UID →
        cur.Spec ≠ desiredKeystoneAPISpec inst →
        (∃ res, (reconcileNormal ⟨noFault, n⟩ s inst ⟨inst⟩).result = Except.ok res) →
        writesTo Kind.KeystoneAPI (reconcileNormal ⟨noFault, n⟩ s inst ⟨inst⟩).calls =
            [⟨Verb.patch, Kind.KeystoneAPI, ⟨inst.Namespace, "keystone"⟩⟩] ∧
          ∃ k, (reconcileNormal ⟨noFault, n⟩ s inst ⟨inst⟩).store.keystoneapis.find?
              (hasKey ⟨inst.Namespace, "keystone"⟩) = some k ∧
            k.Spec = desiredKeystoneAPISpec inst ∧
            k.OwnerReferences = cur.OwnerReferences ∧
            ∀ (α : Type) (F : KeystoneAPISpec → α),
              F cur.Spec = F (desiredKeystoneAPISpec inst) → F k.Spec = F cur.Spec) := by
  constructor
  · intro cur c hfind hc hu hs
    have hM := step_drift n Kind.MariaDB s.mariadbs (mariadbObject inst) inst
      (desiredMariaDBSpec inst) cur c hfind hc hu hs
    have hM1 : (convergeMariaDB ⟨noFault, n⟩ s inst ⟨inst⟩).result =
        Except.ok OperationResult.Updated := by rw [convergeMariaDB_noFault, hM]
    obtain ⟨h1, h2, -⟩ := reconcileNormal_of_mariadb_ok _ s inst ⟨inst⟩ _ hM1
    rw [h1, h2, writesTo_append, writesTo_keystone_step, convergeMariaDB_noFault, hM]
    refine ⟨rfl, _, find_updated _ s.mariadbs cur _ hfind, rfl, rfl, ?_⟩
    intro α F hF
    exact hF.symm
  · intro cur c hfind hc hu hs hres
    obtain ⟨res, hres⟩ := hres
    obtain ⟨rm, hM1⟩ := mariadb_ok_of_ok _ s inst ⟨inst⟩ res hres
    have hK := step_drift n Kind.KeystoneAPI s.keystoneapis (keystoneAPIObject inst) inst
      (desiredKeystoneAPISpec inst) cur c hfind hc hu hs
    obtain ⟨h1, -, h3⟩ := reconcileNormal_of_mariadb_ok _ s inst ⟨inst⟩ _ hM1
    rw [h1, h3, writesTo_append, writesTo_mariadb_step, convergeKeystoneAPI_noFault, hK]
    refine ⟨rfl, _, find_updated _ s.keystoneapis cur _ hfind, rfl, rfl, ?_⟩
    intro α F hF
    exact hF.symm

/-- Claim C8, as amended: on a store that answers every call, for a stored
parent whose MariaDB template sets no storage class and whose MariaDB child is
absent, `Reconcile` creates the MariaDB child with the storage class that the
stored parent carries, whatever it is; no default is applied. -/
theorem created_mariadb_inherits (n : Nat) (s : Store) (req : NamespacedName)
    (inst : OpenStackControlPlane)
    (hget : s.controlplanes.find? (hasKey req) = some inst)
    (ht : inst.Spec.MariadbTemplate.StorageClass = "")
    (habs : s.mariadbs.find? (hasKey ⟨inst.Namespace, "openstack"⟩) = none) :
    writesTo Kind.MariaDB (Reconcile ⟨noFault, n⟩ s req).calls =
        [⟨Verb.create, Kind.MariaDB, ⟨inst.Namespace, "openstack"⟩⟩] ∧
      ∃ m, (Reconcile ⟨noFault, n⟩ s req).store.mariadbs.find?
          (hasKey ⟨inst.Namespace, "openstack"⟩) = some m ∧
        m ∉ s.mariadbs ∧
        m.Spec.StorageClass = inst.Spec.StorageClass := by
  have hR : Reconcile ⟨noFault, n⟩ s req =
      ⟨(reconcileNormal ⟨noFault, n⟩ s inst ⟨inst⟩).result,
        (reconcileNormal ⟨noFault, n⟩ s inst ⟨inst⟩).store,
        ⟨Verb.get, Kind.OpenStackControlPlane, req⟩ ::
          (reconcileNormal ⟨noFault, n⟩ s inst ⟨inst⟩).calls⟩ := by
    unfold Reconcile
    simp only [get_noFault_some hget, NewHelper]
  have hM := step_absent n Kind.MariaDB s.mariadbs (mariadbObject inst) inst
    (desiredMariaDBSpec inst) habs rfl
  have hM1 : (convergeMariaDB ⟨noFault, n⟩ s inst ⟨inst⟩).result =
      Except.ok OperationResult.Created := by rw [convergeMariaDB_noFault, hM]
  obtain ⟨h1, h2, -⟩ := reconcileNormal_of_mariadb_ok _ s inst ⟨inst⟩ _ hM1
  rw [hR]
  simp only []
  constructor
  · have : writesTo Kind.MariaDB (⟨Verb.get, Kind.OpenStackControlPlane, req⟩ ::
        (reconcileNormal ⟨noFault, n⟩ s inst ⟨inst⟩).calls) =
        writesTo Kind.MariaDB (reconcileNormal ⟨noFault, n⟩ s inst ⟨inst⟩).calls := rfl
    rw [this, h1, writesTo_append, writesTo_keystone_step, convergeMariaDB_noFault, hM]
    rfl
  · rw [h2, convergeMariaDB_noFault, hM]
    simp only []
    refine ⟨⟨{ (mariadbObject inst).toObjectMeta with
      ResourceVersion := 1, OwnerReferences := [controllerRef inst] },
      desiredMariaDBSpec inst⟩, ?_, ?_, ?_⟩
    · rw [List.find?_append, habs]
      simp [hasKey, mariadbObject]
    · intro hmem
      have := (List.find?_eq_none.mp habs) _ hmem
      simp [hasKey, mariadbObject] at this
    · have := desiredMariaDBSpec_storageClass inst
      simpa [ht] using this

/-- Convergence depends on the owner through its UID alone. -/
theorem converged_congr {S : Type} (o1 o2 : OpenStackControlPlane) (h : o1.UID = o2.UID)
    {desired : S} {key : NamespacedName} {objs : List (Obj S)}
    (hc : Converged o1 desired key objs) : Converged o2 desired key objs := by
  obtain ⟨c, hf, hs, r, hr, hu⟩ := hc
  exact ⟨c, hf, hs, r, hr, hu.trans h⟩

/-- Claim C9: on a store that answers every call, after a run of
`reconcileNormal` without error for a parent whose MariaDB template sets no
storage class, a run for the same parent with only `Spec.StorageClass` changed
to `fast` leaves the MariaDB child with storage class `fast`, through exactly
one update when the storage class was not `fast` before, and issues no write
to the KeystoneAPI child, which stays as it was.  The desired KeystoneAPI spec
is the same for two parents that differ only in `Spec.StorageClass`. -/
theorem storageClass_change_patches_mariadb_only (n : Nat) (s : Store)
    (inst : OpenStackControlPlane) (res : Result)
    (hconv : (reconcileNormal ⟨noFault, n⟩ s inst ⟨inst⟩).result = Except.ok res)
    (ht : inst.Spec.MariadbTemplate.StorageClass = "") :
    (∃ m, (reconcileNormal ⟨noFault, n⟩ (reconcileNormal ⟨noFault, n⟩ s inst ⟨inst⟩).store
          (withStorageClass inst "fast") ⟨withStorageClass inst "fast"⟩).store.mariadbs.find?
          (hasKey ⟨inst.Namespace, "openstack"⟩) = some m ∧
        m.Spec.StorageClass = "fast" ∧
        m.Spec = desiredMariaDBSpec (withStorageClass inst "fast")) ∧
      (inst.Spec.StorageClass ≠ "fast" →
        writesTo Kind.MariaDB
          (reconcileNormal ⟨noFault, n⟩ (reconcileNormal ⟨noFault, n⟩ s inst ⟨inst⟩).store
            (withStorageClass inst "fast") ⟨withStorageClass inst "fast"⟩).calls =
          [⟨Verb.patch, Kind.MariaDB, ⟨inst.Namespace, "openstack"⟩⟩]) ∧
      writesTo Kind.KeystoneAPI
        (reconcileNormal ⟨noFault, n⟩ (reconcileNormal ⟨noFault, n⟩ s inst ⟨inst⟩).store
          (withStorageClass inst "fast") ⟨withStorageClass inst "fast"⟩).calls = [] ∧
      (reconcileNormal ⟨noFault, n⟩ (reconcileNormal ⟨noFault, n⟩ s inst ⟨inst⟩).store
          (withStorageClass inst "fast") ⟨withStorageClass inst "fast"⟩).store.keystoneapis =
        (reconcileNormal ⟨noFault, n⟩ s inst ⟨inst⟩).store.keystoneapis ∧
      (∀ sc, desiredKeystoneAPISpec (withStorageClass inst sc) = desiredKeystoneAPISpec inst) := by
  obtain ⟨hm, hk⟩ := reconcileNormal_ok_converged _ s inst ⟨inst⟩ res hconv
  generalize (reconcileNormal ⟨noFault, n⟩ s inst ⟨inst⟩).store = s1 at hm hk ⊢
  have hk2 : Converged (withStorageClass inst "fast")
      (desiredKeystoneAPISpec (withStorageClass inst "fast"))
      (ObjectKeyFromObject (keystoneAPIObject (withStorageClass inst "fast"))) s1.keystoneapis :=
    converged_congr inst (withStorageClass inst "fast") rfl hk
  have hK := step_converged n Kind.KeystoneAPI s1.keystoneapis
    (keystoneAPIObject (withStorageClass inst "fast")) (withStorageClass inst "fast") _ hk2
  have hsc : (desiredMariaDBSpec (withStorageClass inst "fast")).StorageClass = "fast" := by
    have := desiredMariaDBSpec_storageClass (withStorageClass inst "fast")
    rw [this]
    have ht2 : (withStorageClass inst "fast").Spec.MariadbTemplate.StorageClass = "" := ht
    rw [if_pos ht2]
    rfl
  have hsc0 : (desiredMariaDBSpec inst).StorageClass = inst.Spec.StorageClass := by
    have := desiredMariaDBSpec_storageClass inst
    rw [this, if_pos ht]
  obtain ⟨cur, hfind, hspec, r, hr, hu⟩ := hm
  have hkw : writesTo Kind.KeystoneAPI
      (convergeKeystoneAPI ⟨noFault, n⟩ s1 (withStorageClass inst "fast")
        ⟨withStorageClass inst "fast"⟩).calls = [] := by
    rw [convergeKeystoneAPI_noFault, hK]; rfl
  have hko : (convergeKeystoneAPI ⟨noFault, n⟩ s1 (withStorageClass inst "fast")
        ⟨withStorageClass inst "fast"⟩).objs = s1.keystoneapis := by
    rw [convergeKeystoneAPI_noFault, hK]
  by_cases hsame : cur.Spec = desiredMariaDBSpec (withStorageClass inst "fast")
  · have hm2 : Converged (withStorageClass inst "fast")
        (desiredMariaDBSpec (withStorageClass inst "fast"))
        (ObjectKeyFromObject (mariadbObject (withStorageClass inst "fast"))) s1.mariadbs :=
      ⟨cur, hfind, hsame, r, hr, hu⟩
    have hM := step_converged n Kind.MariaDB s1.mariadbs
      (mariadbObject (withStorageClass inst "fast")) (withStorageClass inst "fast") _ hm2
    have hM1 : (convergeMariaDB ⟨noFault, n⟩ s1 (withStorageClass inst "fast")
        ⟨withStorageClass inst "fast"⟩).result = Except.ok OperationResult.None := by
      rw [convergeMariaDB_noFault, hM]
    obtain ⟨h1, h2, h3⟩ := reconcileNormal_of_mariadb_ok _ s1 (withStorageClass inst "fast")
      ⟨withStorageClass inst "fast"⟩ _ hM1
    refine ⟨⟨cur, ?_, ?_, hsame⟩, ?_, ?_, ?_, fun _ => rfl⟩
    · rw [h2, convergeMariaDB_noFault, hM]; exact hfind
    · rw [hsame]; exact hsc
    · intro hne
      exfalso
      apply hne
      rw [← hsc0, ← hspec, hsame, hsc]
    · rw [h1, writesTo_append, writesTo_mariadb_step, hkw]; rfl
    · rw [h3, hko]
  · have hM := step_drift n Kind.MariaDB s1.mariadbs
      (mariadbObject (withStorageClass inst "fast")) (withStorageClass inst "fast")
      (desiredMariaDBSpec (withStorageClass inst "fast")) cur r hfind hr hu hsame
    have hM1 : (convergeMariaDB ⟨noFault, n⟩ s1 (withStorageClass inst "fast")
        ⟨withStorageClass inst "fast"⟩).result = Except.ok OperationResult.Updated := by
      rw [convergeMariaDB_noFault, hM]
    obtain ⟨h1, h2, h3⟩ := reconcileNormal_of_mariadb_ok _ s1 (withStorageClass inst "fast")
      ⟨withStorageClass inst "fast"⟩ _ hM1
    refine ⟨⟨⟨{ cur.toObjectMeta with ResourceVersion := cur.ResourceVersion + 1 },
      desiredMariaDBSpec (withStorageClass inst "fast")⟩, ?_, hsc, rfl⟩, ?_, ?_, ?_,
      fun _ => rfl⟩
    · rw [h2, convergeMariaDB_noFault, hM]
      exact find_updated _ s1.mariadbs cur _ hfind
    · intro _
      rw [h1, writesTo_append, writesTo_keystone_step, convergeMariaDB_noFault, hM]
      rfl
    · rw [h1, writesTo_append, writesTo_mariadb_step, hkw]; rfl
    · rw [h3, hko]

/-! ## Witnesses and counterexamples -/

/-- Witness for claim C1: a request for a parent that the sample store does not
hold. -/
theorem Reconcile_parent_not_found_witness :
    Get sampleReconciler.fault Kind.OpenStackControlPlane
        (freshStore "standard").controlplanes ⟨"osp", "absent"⟩ =
        Except.error StatusError.NotFound ∧
      (Reconcile sampleReconciler (freshStore "standard") ⟨"osp", "absent"⟩).result =
        Except.ok { Requeue := false, RequeueAfter := 0 } ∧
      (Reconcile sampleReconciler (freshStore "standard") ⟨"osp", "absent"⟩).store =
        freshStore "standard" ∧
      writes (Reconcile sampleReconciler (freshStore "standard") ⟨"osp", "absent"⟩).calls = [] :=
  have h := Reconcile_parent_not_found sampleReconciler (freshStore "standard")
    ⟨"osp", "absent"⟩ rfl
  ⟨rfl, h.1, h.2.1, h.2.2.2.1⟩

/-- Witness for claim C3: after a run on the fresh sample store both children
are stored under their fixed names. -/
theorem children_fixed_identity_witness :
    (∃ m, (reconcileNormal sampleReconciler (freshStore "standard") (samplePlane "standard")
          ⟨samplePlane "standard"⟩).store.mariadbs.find? (hasKey ⟨"osp", "openstack"⟩) = some m ∧
        m.Name = "openstack" ∧ m.Namespace = "osp") ∧
      (∃ k, (reconcileNormal sampleReconciler (freshStore "standard") (samplePlane "standard")
          ⟨samplePlane "standard"⟩).store.keystoneapis.find? (hasKey ⟨"osp", "keystone"⟩) = some k ∧
        k.Name = "keystone" ∧ k.Namespace = "osp") :=
  (children_fixed_identity sampleReconciler (freshStore "standard") (samplePlane "standard")
    ⟨samplePlane "standard"⟩).2.2 _ rfl

/-- Witness for claim C7: the MariaDB child is controlled by a second control
plane, converging it fails, and the run issues no call on KeystoneAPI. -/
theorem mariadb_before_keystone_witness :
    (convergeMariaDB sampleReconciler ⟨[samplePlane ""], [foreignMariaDB], []⟩ (samplePlane "")
        ⟨samplePlane ""⟩).result = Except.error StatusError.AlreadyOwned ∧
      (reconcileNormal sampleReconciler ⟨[samplePlane ""], [foreignMariaDB], []⟩ (samplePlane "")
        ⟨samplePlane ""⟩).result = Except.error StatusError.AlreadyOwned ∧
      callsOn Kind.KeystoneAPI
        (reconcileNormal sampleReconciler ⟨[samplePlane ""], [foreignMariaDB], []⟩ (samplePlane "")
          ⟨samplePlane ""⟩).calls = [] :=
  have h := (mariadb_before_keystone sampleReconciler ⟨[samplePlane ""], [foreignMariaDB], []⟩
    (samplePlane "") ⟨samplePlane ""⟩).2 StatusError.AlreadyOwned rfl
  ⟨rfl, h.1, h.2.1⟩

/-- Witness for claim C5: a MariaDB child, and a KeystoneAPI child, that a
second control plane controls. -/
theorem other_owner_not_overwritten_witness :
    ((∃ e, (reconcileNormal sampleReconciler ⟨[samplePlane ""], [foreignMariaDB], []⟩
          (samplePlane "") ⟨samplePlane ""⟩).result = Except.error e) ∧
        (reconcileNormal sampleReconciler ⟨[samplePlane ""], [foreignMariaDB], []⟩
          (samplePlane "") ⟨samplePlane ""⟩).store = ⟨[samplePlane ""], [foreignMariaDB], []⟩) ∧
      ((∃ e, (reconcileNormal sampleReconciler ⟨[samplePlane ""], [], [foreignKeystoneAPI]⟩
          (samplePlane "") ⟨samplePlane ""⟩).result = Except.error e) ∧
        (reconcileNormal sampleReconciler ⟨[samplePlane ""], [], [foreignKeystoneAPI]⟩
          (samplePlane "") ⟨samplePlane ""⟩).store.keystoneapis = [foreignKeystoneAPI]) :=
  ⟨(other_owner_not_overwritten sampleReconciler ⟨[samplePlane ""], [foreignMariaDB], []⟩
      (samplePlane "")).1 foreignMariaDB foreignRef rfl rfl (by decide),
    (other_owner_not_overwritten sampleReconciler ⟨[samplePlane ""], [], [foreignKeystoneAPI]⟩
      (samplePlane "")).2 foreignKeystoneAPI foreignRef rfl rfl (by decide)⟩

/-- Counterexample to claim C4 as stated: the KeystoneAPI child is absent and
the MariaDB child is controlled by a second control plane; the first run
writes nothing to KeystoneAPI, not exactly once, and after two runs the
KeystoneAPI child is still absent. -/
theorem idempotence_counterexample :
    (⟨[samplePlane ""], [foreignMariaDB], []⟩ : Store).keystoneapis.find?
        (hasKey ⟨"osp", "keystone"⟩) = none ∧
      writesTo Kind.KeystoneAPI
        (reconcileNormal sampleReconciler ⟨[samplePlane ""], [foreignMariaDB], []⟩
          (samplePlane "") ⟨samplePlane ""⟩).calls = [] ∧
      (writesTo Kind.KeystoneAPI
        (reconcileNormal sampleReconciler ⟨[samplePlane ""], [foreignMariaDB], []⟩
          (samplePlane "") ⟨samplePlane ""⟩).calls).length ≠ 1 ∧
      (reconcileNormal sampleReconciler
        (reconcileNormal sampleReconciler ⟨[samplePlane ""], [foreignMariaDB], []⟩
          (samplePlane "") ⟨samplePlane ""⟩).store
        (samplePlane "") ⟨samplePlane ""⟩).store.keystoneapis = [] :=
  ⟨rfl, rfl, by decide, rfl⟩

/-- Witness for claim C4 as amended: two runs from the fresh sample store. -/
theorem reconcileNormal_idempotent_witness :
    writesTo Kind.MariaDB (reconcileNormal ⟨noFault, 3⟩ (freshStore "standard")
        (samplePlane "standard") ⟨samplePlane "standard"⟩).calls =
        [⟨Verb.create, Kind.MariaDB, ⟨"osp", "openstack"⟩⟩] ∧
      writesTo Kind.KeystoneAPI (reconcileNormal ⟨noFault, 3⟩ (freshStore "standard")
        (samplePlane "standard") ⟨samplePlane "standard"⟩).calls =
        [⟨Verb.create, Kind.KeystoneAPI, ⟨"osp", "keystone"⟩⟩] ∧
      writes (reconcileNormal ⟨noFault, 3⟩
        (reconcileNormal ⟨noFault, 3⟩ (freshStore "standard") (samplePlane "standard")
          ⟨samplePlane "standard"⟩).store
        (samplePlane "standard") ⟨samplePlane "standard"⟩).calls = [] :=
  have h := reconcileNormal_idempotent 3 (freshStore "standard") (samplePlane "standard")
  ⟨h.1 rfl, h.2.1 rfl ⟨_, rfl⟩, h.2.2.1⟩

/-- Counterexample to claim C6 as stated: the KeystoneAPI child exists, is
controlled by the parent and differs from the desired spec in
`DatabaseInstance` only, and the MariaDB child is controlled by a second
control plane; the run issues no update to the KeystoneAPI child and leaves it
as it was. -/
theorem drift_counterexample :
    (⟨[samplePlane "standard"], [foreignMariaDB], [driftedKeystoneAPI]⟩ : Store).keystoneapis.find?
        (hasKey ⟨"osp", "keystone"⟩) = some driftedKeystoneAPI ∧
      GetControllerOf driftedKeystoneAPI.toObjectMeta =
        some (controllerRef (samplePlane "standard")) ∧
      driftedKeystoneAPI.Spec.DatabaseInstance ≠
        (desiredKeystoneAPISpec (samplePlane "standard")).DatabaseInstance ∧
      driftedKeystoneAPI.Spec.Secret = (desiredKeystoneAPISpec (samplePlane "standard")).Secret ∧
      driftedKeystoneAPI.Spec.Rest = (desiredKeystoneAPISpec (samplePlane "standard")).Rest ∧
      writesTo Kind.KeystoneAPI
        (reconcileNormal sampleReconciler
          ⟨[samplePlane "standard"], [foreignMariaDB], [driftedKeystoneAPI]⟩
          (samplePlane "standard") ⟨samplePlane "standard"⟩).calls = [] ∧
      (reconcileNormal sampleReconciler
          ⟨[samplePlane "standard"], [foreignMariaDB], [driftedKeystoneAPI]⟩
          (samplePlane "standard") ⟨samplePlane "standard"⟩).store.keystoneapis =
        [driftedKeystoneAPI] :=
  ⟨rfl, rfl, by decide, rfl, rfl, rfl, rfl⟩

/-- Witness for claim C6 as amended: both children are controlled by the parent
and have drifted. -/
theorem drift_corrected_witness :
    (writesTo Kind.MariaDB
        (reconcileNormal ⟨noFault, 3⟩
          ⟨[samplePlane "standard"], [driftedMariaDB], [driftedKeystoneAPI]⟩
          (samplePlane "standard") ⟨samplePlane "standard"⟩).calls =
        [⟨Verb.patch, Kind.MariaDB, ⟨"osp", "openstack"⟩⟩]) ∧
      (writesTo Kind.KeystoneAPI
        (reconcileNormal ⟨noFault, 3⟩
          ⟨[samplePlane "standard"], [driftedMariaDB], [driftedKeystoneAPI]⟩
          (samplePlane "standard") ⟨samplePlane "standard"⟩).calls =
        [⟨Verb.patch, Kind.KeystoneAPI, ⟨"osp", "keystone"⟩⟩]) :=
  have h := drift_corrected 3 ⟨[samplePlane "standard"], [driftedMariaDB], [driftedKeystoneAPI]⟩
    (samplePlane "standard")
  ⟨(h.1 driftedMariaDB (controllerRef (samplePlane "standard")) rfl rfl rfl (by decide)).1,
    (h.2 driftedKeystoneAPI (controllerRef (samplePlane "standard")) rfl rfl rfl (by decide)
      ⟨_, rfl⟩).1⟩

/-- Counterexample to claim C8 as stated: the parent has storage class `""`,
its MariaDB template sets none, and the MariaDB child that `Reconcile` creates
has storage class `""`, not `standard`. -/
theorem created_storageClass_counterexample :
    (samplePlane "").Spec.StorageClass = "" ∧
      (samplePlane "").Spec.MariadbTemplate.StorageClass = "" ∧
      (desiredMariaDBSpec (samplePlane "")).StorageClass = "" ∧
      ((Reconcile sampleReconciler (freshStore "") ⟨"osp", "controlplane"⟩).store.mariadbs.find?
        (hasKey ⟨"osp", "openstack"⟩)).map (fun m => m.Spec.StorageClass) = some "" ∧
      ((Reconcile sampleReconciler (freshStore "") ⟨"osp", "controlplane"⟩).store.mariadbs.find?
        (hasKey ⟨"osp", "openstack"⟩)).map (fun m => m.Spec.StorageClass) ≠ some "standard" :=
  ⟨rfl, rfl, rfl, rfl, by decide⟩

/-- Witness for claim C8 as amended: a parent stored with storage class
`standard`. -/
theorem created_mariadb_inherits_witness :
    ∃ m, (Reconcile ⟨noFault, 3⟩ (freshStore "standard")
          ⟨"osp", "controlplane"⟩).store.mariadbs.find? (hasKey ⟨"osp", "openstack"⟩) = some m ∧
      m.Spec.StorageClass = "standard" :=
  have h := created_mariadb_inherits 3 (freshStore "standard") ⟨"osp", "controlplane"⟩
    (samplePlane "standard") rfl rfl rfl
  h.2.elim fun m hm => ⟨m, hm.1, hm.2.2⟩

/-- Witness for claim C9: the sample parent goes from `standard` to `fast`. -/
theorem storageClass_change_witness :
    (∃ m, (reconcileNormal ⟨noFault, 3⟩
          (reconcileNormal ⟨noFault, 3⟩ (freshStore "standard") (samplePlane "standard")
            ⟨samplePlane "standard"⟩).store
          (withStorageClass (samplePlane "standard") "fast")
          ⟨withStorageClass (samplePlane "standard") "fast"⟩).store.mariadbs.find?
          (hasKey ⟨"osp", "openstack"⟩) = some m ∧ m.Spec.StorageClass = "fast") ∧
      writesTo Kind.MariaDB
        (reconcileNormal ⟨noFault, 3⟩
          (reconcileNormal ⟨noFault, 3⟩ (freshStore "standard") (samplePlane "standard")
            ⟨samplePlane "standard"⟩).store
          (withStorageClass (samplePlane "standard") "fast")
          ⟨withStorageClass (samplePlane "standard") "fast"⟩).calls =
        [⟨Verb.patch, Kind.MariaDB, ⟨"osp", "openstack"⟩⟩] ∧
      writesTo Kind.KeystoneAPI
        (reconcileNormal ⟨noFault, 3⟩
          (reconcileNormal ⟨noFault, 3⟩ (freshStore "standard") (samplePlane "standard")
            ⟨samplePlane "standard"⟩).store
          (withStorageClass (samplePlane "standard") "fast")
          ⟨withStorageClass (samplePlane "standard") "fast"⟩).calls = [] :=
  have h := storageClass_change_patches_mariadb_only 3 (freshStore "standard")
    (samplePlane "standard") _ rfl rfl
  ⟨h.1.elim fun m hm => ⟨m, hm.1, hm.2.1⟩, h.2.1 (by decide), h.2.2.1⟩

end ControlPlane
